import Mathlib

set_option maxRecDepth 100000

/-!
Verification development for the HtmlCleaner repository (src/HtmlCleaner.py).

The streaming rewriter (`HtmlCleanerParser`) is embedded as a state-passing
function over an explicit token stream; each `self.output.append(...)` site in
the source corresponds to one constructor of `Frag`, and `Frag.render` produces
exactly the string the source appends.  The regex post-processing pipeline of
`clean_html` is embedded as fuel-based structural scanners implementing the
specific patterns used by the source.
-/

/-- Characters treated as whitespace by Python's `str.strip` and the regex
class used in the source (ASCII range). -/
def pySpace (c : Char) : Bool :=
  c = ' ' || c = '\t' || c = '\n' || c = '\r' || c = '\x0b' || c = '\x0c'

/-- Drop a leading whitespace run. -/
def dropWs : List Char → List Char
  | [] => []
  | c :: rest => if pySpace c then dropWs rest else c :: rest

/-- Python `str.strip` on a character list. -/
def pyStripL (l : List Char) : List Char :=
  ((dropWs ((dropWs l).reverse)).reverse)

/-- Python `str.strip`. -/
def pyStrip (s : String) : String := String.mk (pyStripL s.toList)

/-- Python `str.lower` (ASCII, which is all the source's patterns need). -/
def lowerStr (s : String) : String := String.mk (s.toList.map Char.toLower)

/-- `sep.join(parts)`. -/
def joinSep (sep : String) : List String → String
  | [] => ""
  | [x] => x
  | x :: y :: xs => x ++ sep ++ joinSep sep (y :: xs)

/-- Does `l` start with `p`? -/
def startsWithL : List Char → List Char → Bool
  | [], _ => true
  | _ :: _, [] => false
  | p :: ps, c :: cs => p = c && startsWithL ps cs

/-- Python's `pat in s` substring containment on character lists. -/
def containsL (pat : List Char) : List Char → Bool
  | [] => startsWithL pat []
  | c :: rest => startsWithL pat (c :: rest) || containsL pat rest

/-- Python's `pat in s` substring containment on strings. -/
def containsStr (pat s : String) : Bool := containsL pat.toList s.toList

/-- The configuration record (the `CONFIG` dict of the source). -/
structure Config where
  keep_tags : List String
  remove_with_content : List String
  table_tags : List String
  keep_attributes : List (String × List String)
  remove_classes : Bool
  remove_ids : Bool
  remove_inline_styles : Bool
  remove_data_attributes : Bool
  remove_empty_tags : Bool
  remove_comments : Bool
  convert_b_to_strong : Bool
  remove_successive_nbsp : Bool
  remove_span_tags : Bool
  preserve_line_breaks : Bool
  convert_tables_to_paragraphs : Bool
deriving Repr, DecidableEq

/-- The `CONFIG` dict of the source, field for field. -/
def defaultConfig : Config where
  keep_tags := ["p", "br", "hr", "h1", "h2", "h3", "h4", "h5", "h6",
    "strong", "b", "em", "i", "s", "strike", "a", "img",
    "ul", "ol", "li", "blockquote", "pre", "code"]
  remove_with_content := ["script", "style", "noscript", "iframe", "object", "embed",
    "form", "input", "button", "select", "textarea",
    "nav", "header", "footer", "aside", "svg", "canvas"]
  table_tags := ["table", "thead", "tbody", "tfoot", "tr", "td", "th"]
  keep_attributes := [("a", ["href", "title"]), ("img", ["src", "alt", "width", "height"])]
  remove_classes := true
  remove_ids := true
  remove_inline_styles := true
  remove_data_attributes := true
  remove_empty_tags := true
  remove_comments := true
  convert_b_to_strong := false
  remove_successive_nbsp := true
  remove_span_tags := true
  preserve_line_breaks := true
  convert_tables_to_paragraphs := true

/-- `config["keep_attributes"].get(tag, [])`. -/
def keepAttrsFor (cfg : Config) (tag : String) : List String :=
  match cfg.keep_attributes.find? (fun p => p.1 == tag) with
  | some p => p.2
  | none => []

/-- Attribute lists as delivered by the tokenizer: a value may be absent
(Python `None`). -/
abbrev Attrs := List (String × Option String)

/-- The hidden-element style patterns of `_is_hidden_pretext`. -/
def hiddenPatterns : List String :=
  ["display: none", "display:none",
   "visibility: hidden", "visibility:hidden",
   "mso-hide: all", "mso-hide:all",
   "max-height: 0", "max-height:0",
   "opacity: 0", "opacity:0"]

/-- `HtmlCleanerParser._is_hidden_pretext`. -/
def is_hidden_pretext (attrs : Attrs) : Bool :=
  attrs.any fun p =>
    p.1 == "style" &&
      (match p.2 with
       | some v => v ≠ "" && hiddenPatterns.any fun pat => containsStr pat (lowerStr v)
       | none => false)

/-- `HtmlCleanerParser._has_bold_style`. -/
def has_bold_style (attrs : Attrs) : Bool :=
  attrs.any fun p =>
    p.1 == "style" &&
      (match p.2 with
       | some v => v ≠ "" &&
          (containsStr "font-weight: bold" (lowerStr v) || containsStr "font-weight:bold" (lowerStr v))
       | none => false)

/-- `re.search(dim ++ ":" ++ whitespace* ++ "1px", l)`: scan every position for
the literal `pat` followed by optional whitespace and `1px`. -/
def searchDimPx (pat : List Char) : List Char → Bool
  | [] => false
  | c :: rest =>
    (startsWithL pat (c :: rest) && startsWithL "1px".toList (dropWs ((c :: rest).drop pat.length)))
      || searchDimPx pat rest

/-- `HtmlCleanerParser._is_tracking_pixel`: the two flags are accumulated over
the attribute list exactly as the source's `for` loop with its `elif` chain. -/
def is_tracking_pixel (attrs : Attrs) : Bool :=
  let step := fun (wh : Bool × Bool) (p : String × Option String) =>
    if p.1 = "width" ∧ (p.2 = some "1" ∨ p.2 = some "1px") then (true, wh.2)
    else if p.1 = "height" ∧ (p.2 = some "1" ∨ p.2 = some "1px") then (wh.1, true)
    else
      match p.2 with
      | some v =>
        if p.1 = "style" ∧ v ≠ "" then
          (wh.1 || searchDimPx "width:".toList (lowerStr v).toList,
           wh.2 || searchDimPx "height:".toList (lowerStr v).toList)
        else wh
      | none => wh
  let wh := attrs.foldl step (false, false)
  wh.1 && wh.2

/-- `HtmlCleanerParser._filter_attributes`. -/
def filter_attributes (cfg : Config) (tag : String) (attrs : Attrs) : List (String × String) :=
  let allowed := keepAttrsFor cfg tag
  let allowedGlobal := keepAttrsFor cfg "*"
  attrs.foldr (fun p acc =>
    if p.1 = "class" ∧ cfg.remove_classes then acc
    else if p.1 = "id" ∧ cfg.remove_ids then acc
    else if p.1 = "style" ∧ cfg.remove_inline_styles then acc
    else if p.1.startsWith "data-" ∧ cfg.remove_data_attributes then acc
    else if p.1 ∈ allowed ∨ p.1 ∈ allowedGlobal then (p.1, p.2.getD "") :: acc
    else acc) []

/-- One entry of `self.output`; each constructor is one `append` site of the
source and `Frag.render` is the exact string that site appends. -/
inductive Frag where
  | dataFrag (s : String)
  | entityFrag (name : String)
  | charFrag (name : String)
  | commentFrag (s : String)
  | cellStart
  | cellEnd
  | divStart
  | divEnd
  | linkOpen
  | linkClose
  | inlineAnchorOpen (href : String)
  | inlineAnchorClose
  | boldOpen
  | boldClose
  | tagOpen (name : String) (attrs : List (String × String))
  | tagSelfClose (name : String) (attrs : List (String × String))
  | tagClose (name : String)
deriving Repr, DecidableEq

/-- `" ".join('k="v"' for k, v in filtered_attrs)`. -/
def renderAttrs (attrs : List (String × String)) : String :=
  joinSep " " (attrs.map fun p => p.1 ++ "=\"" ++ p.2 ++ "\"")

/-- The exact string each output fragment contributes. -/
def Frag.render : Frag → String
  | dataFrag s => s
  | entityFrag n => "&" ++ n ++ ";"
  | charFrag n => "&#" ++ n ++ ";"
  | commentFrag s => "<!--" ++ s ++ "-->"
  | cellStart => "<!--CELL_START-->"
  | cellEnd => "<!--CELL_END-->"
  | divStart => "<!--DIV_START-->"
  | divEnd => "<!--DIV_END-->"
  | linkOpen => "[link]"
  | linkClose => "[/link]"
  | inlineAnchorOpen h => "<a href=\"" ++ h ++ "\">"
  | inlineAnchorClose => "</a>"
  | boldOpen => "<b>"
  | boldClose => "</b>"
  | tagOpen n attrs =>
      if attrs = [] then "<" ++ n ++ ">" else "<" ++ n ++ " " ++ renderAttrs attrs ++ ">"
  | tagSelfClose n attrs =>
      if attrs = [] then "<" ++ n ++ " />" else "<" ++ n ++ " " ++ renderAttrs attrs ++ " />"
  | tagClose n => "</" ++ n ++ ">"

/-- The mutable state of `HtmlCleanerParser`, field for field (the Python
`set` `link_set` is modelled as a duplicate-free insertion list used only
through membership). -/
structure PState where
  output : List Frag
  skip_depth : Nat
  pretext_depth : Nat
  pretext_content : List String
  pretexts : List String
  bold_tag_stack : List String
  links : List String
  link_set : List String
  title : Option String
  in_title : Bool
  title_content : List String
  inline_anchor_depth : Nat
deriving Repr, DecidableEq

/-- The state `__init__` builds. -/
def initState : PState where
  output := []
  skip_depth := 0
  pretext_depth := 0
  pretext_content := []
  pretexts := []
  bold_tag_stack := []
  links := []
  link_set := []
  title := none
  in_title := false
  title_content := []
  inline_anchor_depth := 0

/-- First `href` attribute's value (the source's `for`/`break` loop); `none`
when the attribute is absent or valueless. -/
def hrefAttr (attrs : Attrs) : Option String :=
  match attrs.find? (fun p => p.1 == "href") with
  | some p => p.2
  | none => none

/-- `skip_patterns = ["mailto", "disclosure", "privacy"]` containment check. -/
def href_exception (h : String) : Bool :=
  ["mailto", "disclosure", "privacy"].any fun pat => containsStr pat (lowerStr h)

/-- `self_closing = tag in ["img", "br", "hr"]`. -/
def selfClosingTags : List String := ["img", "br", "hr"]

/-- The tail of `handle_starttag` for a kept non-anchor tag: attribute
filtering, bold-stack push, tag emission, bold marker emission. -/
def handleKeptStart (cfg : Config) (tag : String) (attrs : Attrs) (s : PState) : PState :=
  let filtered := filter_attributes cfg tag attrs
  let isBold := has_bold_style attrs
  let s1 := if isBold then { s with bold_tag_stack := s.bold_tag_stack ++ [tag] } else s
  let sc : Bool := tag ∈ selfClosingTags
  let s2 := { s1 with output := s1.output ++
      [if sc then Frag.tagSelfClose tag filtered else Frag.tagOpen tag filtered] }
  if isBold ∧ ¬ sc then { s2 with output := s2.output ++ [Frag.boldOpen] } else s2

/-- The anchor special case of `handle_starttag`. -/
def handleAnchorStart (attrs : Attrs) (s : PState) : PState :=
  match hrefAttr attrs with
  | some h =>
    if h ≠ "" ∧ href_exception h then
      { s with output := s.output ++ [Frag.inlineAnchorOpen h],
               inline_anchor_depth := s.inline_anchor_depth + 1 }
    else
      let s1 := if h ≠ "" ∧ h ∉ s.link_set then
          { s with link_set := s.link_set ++ [h], links := s.links ++ [h] }
        else s
      { s1 with output := s1.output ++ [Frag.linkOpen] }
  | none => { s with output := s.output ++ [Frag.linkOpen] }

/-- The `convert_b_to_strong` renaming. -/
def renameTag (cfg : Config) (tag : String) : String :=
  if cfg.convert_b_to_strong then
    (if tag = "b" then "strong" else if tag = "i" then "em" else tag)
  else tag

/-- `HtmlCleanerParser.handle_starttag`, check for check in source order. -/
def handle_starttag (cfg : Config) (tag : String) (attrs : Attrs) (s : PState) : PState :=
  if tag = "title" ∧ s.title = none then { s with in_title := true }
  else if s.skip_depth > 0 then
    (if tag ∈ cfg.remove_with_content then { s with skip_depth := s.skip_depth + 1 } else s)
  else if tag ∈ cfg.remove_with_content then { s with skip_depth := 1 }
  else if s.pretext_depth > 0 then { s with pretext_depth := s.pretext_depth + 1 }
  else if is_hidden_pretext attrs then { s with pretext_depth := 1 }
  else if cfg.convert_tables_to_paragraphs ∧ tag ∈ ["table", "thead", "tbody", "tfoot", "tr"] then s
  else if cfg.convert_tables_to_paragraphs ∧ tag ∈ ["td", "th"] then
    { s with output := s.output ++ [Frag.cellStart] }
  else if tag = "div" then { s with output := s.output ++ [Frag.divStart] }
  else if tag = "span" ∧ cfg.remove_span_tags then s
  else if tag = "img" ∧ is_tracking_pixel attrs then s
  else
    let tag2 := renameTag cfg tag
    if tag2 ∉ cfg.keep_tags then s
    else if tag2 = "a" then handleAnchorStart attrs s
    else handleKeptStart cfg tag2 attrs s

/-- `HtmlCleanerParser.handle_startendtag` just delegates. -/
def handle_startendtag (cfg : Config) (tag : String) (attrs : Attrs) (s : PState) : PState :=
  handle_starttag cfg tag attrs s

/-- Fuel-bounded greedy matcher for the anchored pattern
`(whitespace* tok whitespace*)+` at the head of `l`; returns the remainder
after the match, or `none` when there is no match.  `tok` is a literal with no
whitespace characters. -/
def leadTokGo (tok : List Char) : Nat → List Char → Option (List Char)
  | 0, _ => none
  | fuel + 1, l =>
    let r := dropWs l
    if startsWithL tok r then
      let after := r.drop tok.length
      match leadTokGo tok fuel after with
      | some rest => some rest
      | none => some (dropWs after)
    else none

/-- Strip a leading `(whitespace* "&nbsp;" whitespace*)+` run
(`re.sub(anchored-leading-nbsp-run, '', pretext)` in the source). -/
def stripLeadNbsp (l : List Char) : List Char :=
  match leadTokGo "&nbsp;".toList (l.length + 1) l with
  | some rest => rest
  | none => l

/-- Strip a trailing `(whitespace* "&nbsp;" whitespace*)+` run
(`re.sub(anchored-trailing-nbsp-run, '', pretext)` in the source), via the
mirrored scan on the reversed list. -/
def stripTrailNbsp (l : List Char) : List Char :=
  match leadTokGo "&nbsp;".toList.reverse (l.length + 1) l.reverse with
  | some rest => rest.reverse
  | none => l

/-- The pretext flush cleanup of `handle_endtag` (strip, strip leading and
trailing nbsp runs, strip). -/
def pretextClean (s : String) : String :=
  String.mk (pyStripL (stripTrailNbsp (stripLeadNbsp (pyStripL s.toList))))

/-- `HtmlCleanerParser.handle_endtag`, check for check in source order. -/
def handle_endtag (cfg : Config) (tag : String) (s : PState) : PState :=
  if tag = "title" ∧ s.in_title then
    { s with in_title := false,
             title := some (pyStrip (String.join s.title_content)),
             title_content := [] }
  else if s.skip_depth > 0 then
    (if tag ∈ cfg.remove_with_content then { s with skip_depth := s.skip_depth - 1 } else s)
  else if s.pretext_depth > 0 then
    (if s.pretext_depth - 1 = 0 then
      let p := pretextClean (String.join s.pretext_content)
      { s with pretext_depth := 0, pretext_content := [],
               pretexts := if p = "" then s.pretexts else s.pretexts ++ [p] }
    else { s with pretext_depth := s.pretext_depth - 1 })
  else if cfg.convert_tables_to_paragraphs ∧ tag ∈ ["table", "thead", "tbody", "tfoot", "tr"] then s
  else if cfg.convert_tables_to_paragraphs ∧ tag ∈ ["td", "th"] then
    { s with output := s.output ++ [Frag.cellEnd] }
  else if tag = "div" then { s with output := s.output ++ [Frag.divEnd] }
  else if tag = "span" ∧ cfg.remove_span_tags then s
  else
    let tag2 := renameTag cfg tag
    if tag2 ∈ cfg.keep_tags then
      (if tag2 = "a" then
        (if s.inline_anchor_depth > 0 then
          { s with output := s.output ++ [Frag.inlineAnchorClose],
                   inline_anchor_depth := s.inline_anchor_depth - 1 }
        else { s with output := s.output ++ [Frag.linkClose] })
      else
        let s1 := if s.bold_tag_stack ≠ [] ∧ s.bold_tag_stack.getLast? = some tag2 then
            { s with output := s.output ++ [Frag.boldClose],
                     bold_tag_stack := s.bold_tag_stack.dropLast }
          else s
        { s1 with output := s1.output ++ [Frag.tagClose tag2] })
    else s

/-- `HtmlCleanerParser.handle_data`. -/
def handle_data (d : String) (s : PState) : PState :=
  if s.in_title then { s with title_content := s.title_content ++ [d] }
  else if s.skip_depth > 0 then s
  else if s.pretext_depth > 0 then { s with pretext_content := s.pretext_content ++ [d] }
  else { s with output := s.output ++ [Frag.dataFrag d] }

/-- `HtmlCleanerParser.handle_entityref`. -/
def handle_entityref (n : String) (s : PState) : PState :=
  if s.skip_depth > 0 then s
  else if s.pretext_depth > 0 then
    { s with pretext_content := s.pretext_content ++ ["&" ++ n ++ ";"] }
  else { s with output := s.output ++ [Frag.entityFrag n] }

/-- `HtmlCleanerParser.handle_charref`. -/
def handle_charref (n : String) (s : PState) : PState :=
  if s.skip_depth > 0 then s
  else if s.pretext_depth > 0 then
    { s with pretext_content := s.pretext_content ++ ["&#" ++ n ++ ";"] }
  else { s with output := s.output ++ [Frag.charFrag n] }

/-- `HtmlCleanerParser.handle_comment`. -/
def handle_comment (cfg : Config) (d : String) (s : PState) : PState :=
  if s.skip_depth > 0 then s
  else if ¬ cfg.remove_comments then { s with output := s.output ++ [Frag.commentFrag d] }
  else s

/-- One tokenizer event, as delivered to the handler callbacks. -/
inductive Token where
  | startTag (name : String) (attrs : Attrs)
  | endTag (name : String)
  | startEndTag (name : String) (attrs : Attrs)
  | dataTok (s : String)
  | entityRef (name : String)
  | charRef (name : String)
  | commentTok (s : String)
deriving Repr, DecidableEq

/-- Dispatch one tokenizer event to its handler. -/
def processToken (cfg : Config) (s : PState) : Token → PState
  | .startTag n a => handle_starttag cfg n a s
  | .endTag n => handle_endtag cfg n s
  | .startEndTag n a => handle_startendtag cfg n a s
  | .dataTok d => handle_data d s
  | .entityRef n => handle_entityref n s
  | .charRef n => handle_charref n s
  | .commentTok d => handle_comment cfg d s

/-- `parser.feed(...)`: run every event through the handlers. -/
def feed (cfg : Config) (ts : List Token) (s : PState) : PState :=
  ts.foldl (processToken cfg) s

/-- `HtmlCleanerParser.get_output`: `"".join(self.output)`. -/
def get_output (s : PState) : String := String.join (s.output.map Frag.render)

/-! ### The post-processing pipeline of `clean_html` (lines 388-508 of the source).

Each regex substitution is embedded as a scanner over `List Char`; the scanners
use a fuel argument (always instantiated with more fuel than the input length,
and every step consumes at least one character) so that they are structurally
recursive and evaluate inside the kernel. -/

/-- Split at the first occurrence of `pat`: content before it and rest after it. -/
def splitAtSub (pat : List Char) : List Char → Option (List Char × List Char)
  | [] => if startsWithL pat [] then some ([], []) else none
  | c :: rest =>
    if startsWithL pat (c :: rest) then some ([], (c :: rest).drop pat.length)
    else
      match splitAtSub pat rest with
      | some p => some (c :: p.1, p.2)
      | none => none

/-- Delete every occurrence of the literal `pat`. -/
def removeAllSub (pat : List Char) : Nat → List Char → List Char
  | 0, l => l
  | fuel + 1, l =>
    match l with
    | [] => []
    | c :: rest =>
      if pat ≠ [] ∧ startsWithL pat (c :: rest) then
        removeAllSub pat fuel ((c :: rest).drop pat.length)
      else c :: removeAllSub pat fuel rest

def cellStartMark : List Char := "<!--CELL_START-->".toList

def cellEndMark : List Char := "<!--CELL_END-->".toList

/-- `re.match(anchored-p-open, content, re.IGNORECASE)`: `<`, `p`/`P`, then
whitespace or `>`. -/
def startsWithPTag : List Char → Bool
  | '<' :: c :: d :: _ => (c = 'p' || c = 'P') && (pySpace d || d = '>')
  | _ => false

/-- The `replace_cell` callback of `convert_cells_to_paragraphs`. -/
def cellRepl (content : List Char) : List Char :=
  let c := pyStripL content
  if c = [] then []
  else if startsWithPTag c then c
  else "<p>".toList ++ c ++ "</p>".toList

/-- The main substitution of `convert_cells_to_paragraphs` (non-greedy
marker-pair replacement). -/
def convCellsGo : Nat → List Char → List Char
  | 0, l => l
  | fuel + 1, l =>
    match l with
    | [] => []
    | c :: rest =>
      if startsWithL cellStartMark (c :: rest) then
        match splitAtSub cellEndMark ((c :: rest).drop cellStartMark.length) with
        | some p => cellRepl p.1 ++ convCellsGo fuel p.2
        | none => c :: convCellsGo fuel rest
      else c :: convCellsGo fuel rest

/-- `convert_cells_to_paragraphs`. -/
def convert_cells_to_paragraphs (l : List Char) : List Char :=
  let r := convCellsGo (l.length + 1) l
  let r := removeAllSub cellStartMark (r.length + 1) r
  removeAllSub cellEndMark (r.length + 1) r

def nbspTok : List Char := "&nbsp;".toList

/-- Greedy count of `("&nbsp;" whitespace*)+` units at the head, with the rest
after the match. -/
def nbspUnits : Nat → List Char → Nat × List Char
  | 0, l => (0, l)
  | fuel + 1, l =>
    if startsWithL nbspTok l then
      let after := dropWs (l.drop nbspTok.length)
      let p := nbspUnits fuel after
      (p.1 + 1, p.2)
    else (0, l)

/-- Source line 432: two-or-more `("&nbsp;" whitespace*)` units become one space. -/
def nbspSub1Go : Nat → List Char → List Char
  | 0, l => l
  | fuel + 1, l =>
    match l with
    | [] => []
    | c :: rest =>
      let p := nbspUnits ((c :: rest).length + 1) (c :: rest)
      if p.1 ≥ 2 then ' ' :: nbspSub1Go fuel p.2
      else c :: nbspSub1Go fuel rest

/-- Source line 433: any `(whitespace* "&nbsp;" whitespace*)+` run becomes one space. -/
def nbspSub2Go : Nat → List Char → List Char
  | 0, l => l
  | fuel + 1, l =>
    match l with
    | [] => []
    | c :: rest =>
      match leadTokGo nbspTok ((c :: rest).length + 1) (c :: rest) with
      | some after => ' ' :: nbspSub2Go fuel after
      | none => c :: nbspSub2Go fuel rest

def isWordChar (c : Char) : Bool := c.isAlphanum || c = '_'

/-- One attempt of the empty-tag pattern at a position right after `<`, trying
name lengths from `k` down (the regex engine's backtracking on the greedy
name group). -/
def tryEmptyTagK (l : List Char) : Nat → Option (List Char)
  | 0 => none
  | k + 1 =>
    let name := l.take (k + 1)
    match splitAtSub ['>'] (l.drop (k + 1)) with
    | some p =>
      let post := dropWs p.2
      if startsWithL ('<' :: '/' :: (name ++ ['>'])) post then
        some (post.drop (name.length + 3))
      else tryEmptyTagK l k
    | none => none

/-- One pass of source line 438: delete `<name ...> whitespace* </name>` pairs. -/
def removeEmptyGo : Nat → List Char → List Char
  | 0, l => l
  | fuel + 1, l =>
    match l with
    | [] => []
    | c :: rest =>
      if c = '<' then
        let w := rest.takeWhile isWordChar
        if w = [] then c :: removeEmptyGo fuel rest
        else
          match tryEmptyTagK rest w.length with
          | some post => removeEmptyGo fuel post
          | none => c :: removeEmptyGo fuel rest
      else c :: removeEmptyGo fuel rest

/-- Source line 443: a whitespace run holding three or more newlines, started
at its first newline and ended at its last, becomes one blank line. -/
def collapseNlGo : Nat → List Char → List Char
  | 0, l => l
  | fuel + 1, l =>
    match l with
    | [] => []
    | c :: rest =>
      if c = '\n' then
        let run := (c :: rest).takeWhile pySpace
        if run.count '\n' ≥ 3 then
          let m := run.length - (run.reverse.takeWhile (fun d => d ≠ '\n')).length
          '\n' :: '\n' :: collapseNlGo fuel ((c :: rest).drop m)
        else c :: collapseNlGo fuel rest
      else c :: collapseNlGo fuel rest

/-- The block-element alternation of source line 445. -/
def blockClosersNl : List String :=
  ["p", "div", "h1", "h2", "h3", "h4", "h5", "h6", "tr", "li", "ul", "ol", "table", "blockquote"]

/-- The block-tag alternation of source line 453 (also `br`, `hr`, `img`). -/
def blockTagsSp : List String :=
  ["p", "div", "h1", "h2", "h3", "h4", "h5", "h6", "tr", "li", "ul", "ol", "table",
   "blockquote", "br", "hr", "img"]

/-- First name of `names` whose closing tag starts here. -/
def findCloser (names : List String) (l : List Char) : Option String :=
  names.find? fun n => startsWithL ("</" ++ n ++ ">").toList l

/-- Source line 445: append a newline after each block-element closing tag. -/
def addBreaksGo : Nat → List Char → List Char
  | 0, l => l
  | fuel + 1, l =>
    match l with
    | [] => []
    | c :: rest =>
      match findCloser blockClosersNl (c :: rest) with
      | some n => ("</" ++ n ++ ">").toList ++ '\n' :: addBreaksGo fuel ((c :: rest).drop (n.length + 3))
      | none => c :: addBreaksGo fuel rest

/-- Source line 448 (`preserve_line_breaks` off): any whitespace run becomes one space. -/
def collapseWsGo : Nat → List Char → List Char
  | 0, l => l
  | fuel + 1, l =>
    match l with
    | [] => []
    | c :: rest =>
      if pySpace c then ' ' :: collapseWsGo fuel (dropWs rest)
      else c :: collapseWsGo fuel rest

/-- Source line 451: runs of the space character become one space. -/
def collapseSpGo : Nat → List Char → List Char
  | 0, l => l
  | fuel + 1, l =>
    match l with
    | [] => []
    | c :: rest =>
      if c = ' ' then ' ' :: collapseSpGo fuel (rest.dropWhile (fun d => d = ' '))
      else c :: collapseSpGo fuel rest

def isHTab (c : Char) : Bool := c = ' ' || c = '\t'

/-- Source line 456: drop horizontal whitespace between a block closing tag and `<`. -/
def sub456Go : Nat → List Char → List Char
  | 0, l => l
  | fuel + 1, l =>
    match l with
    | [] => []
    | c :: rest =>
      match findCloser blockTagsSp (c :: rest) with
      | some n =>
        let after := (c :: rest).drop (n.length + 3)
        let ws := after.takeWhile isHTab
        if ws ≠ [] ∧ (after.drop ws.length).head? = some '<' then
          ("</" ++ n ++ ">").toList ++ '<' :: sub456Go fuel ((after.drop ws.length).drop 1)
        else c :: sub456Go fuel rest
      | none => c :: sub456Go fuel rest

/-- The group-2 alternation `<` `/`? block-name of source lines 457/460, in
alternation order. -/
def tryBlockPre (l : List Char) : Option (List Char) :=
  (blockTagsSp.filterMap fun n =>
    if startsWithL ('<' :: '/' :: n.toList) l then some ('<' :: '/' :: n.toList)
    else if startsWithL ('<' :: n.toList) l then some ('<' :: n.toList)
    else none).head?

/-- Source line 457: drop horizontal whitespace between `>` and an opening or
closing block tag. -/
def sub457Go : Nat → List Char → List Char
  | 0, l => l
  | fuel + 1, l =>
    match l with
    | [] => []
    | c :: rest =>
      if c = '>' then
        let ws := rest.takeWhile isHTab
        if ws ≠ [] then
          match tryBlockPre (rest.drop ws.length) with
          | some g => '>' :: (g ++ sub457Go fuel ((rest.drop ws.length).drop g.length))
          | none => c :: sub457Go fuel rest
        else c :: sub457Go fuel rest
      else c :: sub457Go fuel rest

/-- Source line 459 (`preserve_line_breaks` off): as line 456 but any whitespace. -/
def sub459Go : Nat → List Char → List Char
  | 0, l => l
  | fuel + 1, l =>
    match l with
    | [] => []
    | c :: rest =>
      match findCloser blockTagsSp (c :: rest) with
      | some n =>
        let after := (c :: rest).drop (n.length + 3)
        let ws := after.takeWhile pySpace
        if ws ≠ [] ∧ (after.drop ws.length).head? = some '<' then
          ("</" ++ n ++ ">").toList ++ '<' :: sub459Go fuel ((after.drop ws.length).drop 1)
        else c :: sub459Go fuel rest
      | none => c :: sub459Go fuel rest

/-- Source line 460 (`preserve_line_breaks` off): as line 457 but any whitespace. -/
def sub460Go : Nat → List Char → List Char
  | 0, l => l
  | fuel + 1, l =>
    match l with
    | [] => []
    | c :: rest =>
      if c = '>' then
        let ws := rest.takeWhile pySpace
        if ws ≠ [] then
          match tryBlockPre (rest.drop ws.length) with
          | some g => '>' :: (g ++ sub460Go fuel ((rest.drop ws.length).drop g.length))
          | none => c :: sub460Go fuel rest
        else c :: sub460Go fuel rest
      else c :: sub460Go fuel rest

def divStartMark : List Char := "<!--DIV_START-->".toList

def divEndMark : List Char := "<!--DIV_END-->".toList

/-- The lambda of source line 465: wrap trimmed div content in a paragraph,
empty content vanishing. -/
def divRepl (content : List Char) : List Char :=
  let c := pyStripL content
  if c = [] then [] else "<p>".toList ++ c ++ "</p>".toList

/-- Source line 465: non-greedy div-marker-pair replacement. -/
def convDivGo : Nat → List Char → List Char
  | 0, l => l
  | fuel + 1, l =>
    match l with
    | [] => []
    | c :: rest =>
      if startsWithL divStartMark (c :: rest) then
        match splitAtSub divEndMark ((c :: rest).drop divStartMark.length) with
        | some p => divRepl p.1 ++ convDivGo fuel p.2
        | none => c :: convDivGo fuel rest
      else c :: convDivGo fuel rest

/-- Source lines 465-468: div-marker conversion plus stray-marker removal. -/
def convertDivMarkers (l : List Char) : List Char :=
  let r := convDivGo (l.length + 1) l
  let r := removeAllSub divStartMark (r.length + 1) r
  removeAllSub divEndMark (r.length + 1) r

/-- Python `split('\n')` (keeping empty segments). -/
def splitNl : List Char → List (List Char)
  | [] => [[]]
  | c :: rest =>
    match splitNl rest with
    | [] => [[c]]
    | h :: t => if c = '\n' then [] :: h :: t else (c :: h) :: t

/-- Python `'\n'.join(...)`. -/
def joinNl : List (List Char) → List Char
  | [] => []
  | [x] => x
  | x :: y :: t => x ++ '\n' :: joinNl (y :: t)

/-- Source lines 471-473: trim every line. -/
def trimLines (l : List Char) : List Char :=
  joinNl ((splitNl l).map pyStripL)

/-- Source line 475: three or more newlines become two. -/
def collapse3NlGo : Nat → List Char → List Char
  | 0, l => l
  | fuel + 1, l =>
    match l with
    | [] => []
    | c :: rest =>
      if c = '\n' then
        let run := (c :: rest).takeWhile (fun d => d = '\n')
        if run.length ≥ 3 then '\n' :: '\n' :: collapse3NlGo fuel ((c :: rest).drop run.length)
        else c :: collapse3NlGo fuel rest
      else c :: collapse3NlGo fuel rest

/-- Source line 477: drop whitespace right after `<p>`. -/
def sub477Go : Nat → List Char → List Char
  | 0, l => l
  | fuel + 1, l =>
    match l with
    | [] => []
    | c :: rest =>
      if startsWithL "<p>".toList (c :: rest) then
        let after := (c :: rest).drop 3
        let ws := after.takeWhile pySpace
        if ws ≠ [] then "<p>".toList ++ sub477Go fuel (after.drop ws.length)
        else c :: sub477Go fuel rest
      else c :: sub477Go fuel rest

/-- Source line 478: drop whitespace right before `</p>`. -/
def sub478Go : Nat → List Char → List Char
  | 0, l => l
  | fuel + 1, l =>
    match l with
    | [] => []
    | c :: rest =>
      if pySpace c then
        let ws := (c :: rest).takeWhile pySpace
        if startsWithL "</p>".toList ((c :: rest).drop ws.length) then
          "</p>".toList ++ sub478Go fuel (((c :: rest).drop ws.length).drop 4)
        else c :: sub478Go fuel rest
      else c :: sub478Go fuel rest

/-- Source line 480: delete `<p> whitespace* </p>` with trailing newlines. -/
def sub480Go : Nat → List Char → List Char
  | 0, l => l
  | fuel + 1, l =>
    match l with
    | [] => []
    | c :: rest =>
      if startsWithL "<p>".toList (c :: rest) then
        let after := (c :: rest).drop 3
        let ws := after.takeWhile pySpace
        if startsWithL "</p>".toList (after.drop ws.length) then
          sub480Go fuel ((((after.drop ws.length).drop 4)).dropWhile (fun d => d = '\n'))
        else c :: sub480Go fuel rest
      else c :: sub480Go fuel rest

/-- Source line 481: delete `<p> (whitespace* "&nbsp;" whitespace*)* </p>` with
trailing newlines. -/
def sub481Go : Nat → List Char → List Char
  | 0, l => l
  | fuel + 1, l =>
    match l with
    | [] => []
    | c :: rest =>
      if startsWithL "<p>".toList (c :: rest) then
        let after := (c :: rest).drop 3
        if startsWithL "</p>".toList after then
          sub481Go fuel ((after.drop 4).dropWhile (fun d => d = '\n'))
        else
          match leadTokGo nbspTok (after.length + 1) after with
          | some r =>
            if startsWithL "</p>".toList r then
              sub481Go fuel ((r.drop 4).dropWhile (fun d => d = '\n'))
            else c :: sub481Go fuel rest
          | none => c :: sub481Go fuel rest
      else c :: sub481Go fuel rest

/-- Source line 483: delete a dangling `<p>` with only whitespace before the
next newline at the very start of the string. -/
def sub483 (l : List Char) : List Char :=
  if startsWithL "<p>".toList l then
    let after := l.drop 3
    let run := after.takeWhile pySpace
    if run.count '\n' ≥ 1 then
      let m := run.length - (run.reverse.takeWhile (fun d => d ≠ '\n')).length
      after.drop m
    else l
  else l

/-- The regex post-processing of `clean_html` (source lines 424-506), applied to
the rewriter output, followed by header assembly. -/
def postProcess (cfg : Config) (result : String) (title : Option String)
    (pretexts links : List String) : String :=
  let r := result.toList
  let r := if cfg.convert_tables_to_paragraphs then convert_cells_to_paragraphs r else r
  let r := if cfg.remove_successive_nbsp then
      nbspSub2Go (r.length + 1) (nbspSub1Go (r.length + 1) r)
    else r
  let r := if cfg.remove_empty_tags then
      removeEmptyGo (r.length + 1)
        (removeEmptyGo (r.length + 1) (removeEmptyGo (r.length + 1) r))
    else r
  let r := if cfg.preserve_line_breaks then
      addBreaksGo (r.length * 2 + 1) (collapseNlGo (r.length + 1) r)
    else collapseWsGo (r.length + 1) r
  let r := collapseSpGo (r.length + 1) r
  let r := if cfg.preserve_line_breaks then
      sub457Go (r.length + 1) (sub456Go (r.length + 1) r)
    else sub460Go (r.length + 1) (sub459Go (r.length + 1) r)
  let r := pyStripL r
  let r := convertDivMarkers r
  let r := trimLines r
  let r := collapse3NlGo (r.length + 1) r
  let r := sub478Go (r.length + 1) (sub477Go (r.length + 1) r)
  let r := sub481Go (r.length + 1) (sub480Go (r.length + 1) r)
  let r := sub483 r
  let r := pyStripL r
  let headerParts : List String :=
    (match title with
     | some t => if t ≠ "" then ["Title: " ++ t] else []
     | none => []) ++
    (if pretexts ≠ [] then
       [joinSep "\n" (pretexts.map fun p => "Pretext: " ++ p)] else []) ++
    (if links ≠ [] then ["Links:\n" ++ joinSep "\n" links] else [])
  if headerParts ≠ [] then
    joinSep "\n\n" headerParts ++ "\n\n\n" ++ String.mk r
  else String.mk r

/-- `clean_html` minus the tokenizer: run the handlers over a token stream and
post-process (the success path of `clean_html`). -/
def cleanTokens (cfg : Config) (ts : List Token) : String :=
  let st := feed cfg ts initState
  postProcess cfg (get_output st) st.title st.pretexts st.links

/-- `clean_html(html, config)`: the tokenizer is an external collaborator and is
passed as a parameter; the first component is the returned text, the second the
failure detail displayed via `sublime.error_message` (`none` when no failure). -/
def clean_html (tokenize : String → Except String (List Token)) (cfg : Config)
    (html : String) : String × Option String :=
  match tokenize html with
  | .error e => (html, some ("HTML Cleaner: Parse error - " ++ e))
  | .ok ts => (cleanTokens cfg ts, none)

/-! ### Tokenizer model.

The HTML tokenizer is an external collaborator (Python's `html.parser`), not
part of the repository source; per the spec it consumes raw markup and delivers
start-tag, end-tag, self-closing-tag, text, character/entity-reference and
comment events. -/

def isTagNameChar (c : Char) : Bool := c.isAlphanum

def isAttrNameChar (c : Char) : Bool :=
  ¬ pySpace c && c ≠ '=' && c ≠ '>' && c ≠ '/'

/-- Modelled from the spec: attribute scanning of the external standard HTML
tokenizer — names are lowercased, values may be double-quoted, single-quoted,
unquoted, or absent.  Returns the attribute list, whether the tag was
self-closing, and the rest of the input after `>`. -/
def tokAttrs : Nat → List Char → Attrs × Bool × List Char
  | 0, l => ([], false, l)
  | fuel + 1, l =>
    match dropWs l with
    | [] => ([], false, [])
    | '>' :: rest => ([], false, rest)
    | '/' :: '>' :: rest => ([], true, rest)
    | c :: rest =>
      let name := (c :: rest).takeWhile isAttrNameChar
      if name = [] then tokAttrs fuel rest
      else
        let nm := String.mk (name.map Char.toLower)
        match dropWs ((c :: rest).drop name.length) with
        | '=' :: r =>
          match dropWs r with
          | '"' :: r2 =>
            (match splitAtSub ['"'] r2 with
             | some p =>
               let q := tokAttrs fuel p.2
               ((nm, some (String.mk p.1)) :: q.1, q.2)
             | none => ([], false, []))
          | '\'' :: r2 =>
            (match splitAtSub ['\''] r2 with
             | some p =>
               let q := tokAttrs fuel p.2
               ((nm, some (String.mk p.1)) :: q.1, q.2)
             | none => ([], false, []))
          | r2 =>
            let v := r2.takeWhile fun d => ¬ pySpace d && d ≠ '>'
            let q := tokAttrs fuel (r2.drop v.length)
            ((nm, some (String.mk v)) :: q.1, q.2)
        | l2 =>
          let q := tokAttrs fuel l2
          ((nm, none) :: q.1, q.2)

/-- Modelled from the spec: the event scan of the external standard HTML
tokenizer.  Tag names are lowercased; an incomplete trailing construct stays
buffered and produces no event; a stray `<` or `&` flows through as text. -/
def tokGo : Nat → List Char → List Token
  | 0, _ => []
  | fuel + 1, l =>
    match l with
    | [] => []
    | '<' :: '!' :: '-' :: '-' :: rest =>
      (match splitAtSub "-->".toList rest with
       | some p => Token.commentTok (String.mk p.1) :: tokGo fuel p.2
       | none => [])
    | '<' :: '/' :: rest =>
      let name := rest.takeWhile isTagNameChar
      if name = [] then Token.dataTok "<" :: tokGo fuel ('/' :: rest)
      else
        (match splitAtSub ['>'] (rest.drop name.length) with
         | some p => Token.endTag (String.mk (name.map Char.toLower)) :: tokGo fuel p.2
         | none => [])
    | '<' :: c :: rest =>
      if c.isAlpha then
        let name := (c :: rest).takeWhile isTagNameChar
        let q := tokAttrs ((c :: rest).length + 1) ((c :: rest).drop name.length)
        (if q.2.1 then Token.startEndTag (String.mk (name.map Char.toLower)) q.1
         else Token.startTag (String.mk (name.map Char.toLower)) q.1) :: tokGo fuel q.2.2
      else Token.dataTok "<" :: tokGo fuel (c :: rest)
    | '&' :: '#' :: rest =>
      let ds := rest.takeWhile Char.isDigit
      if ds ≠ [] ∧ (rest.drop ds.length).head? = some ';' then
        Token.charRef (String.mk ds) :: tokGo fuel (rest.drop (ds.length + 1))
      else Token.dataTok "&" :: tokGo fuel ('#' :: rest)
    | '&' :: rest =>
      let ns := rest.takeWhile Char.isAlphanum
      if ns ≠ [] ∧ (rest.drop ns.length).head? = some ';' then
        Token.entityRef (String.mk ns) :: tokGo fuel (rest.drop (ns.length + 1))
      else Token.dataTok "&" :: tokGo fuel rest
    | c :: rest =>
      let run := (c :: rest).takeWhile fun d => d ≠ '<' && d ≠ '&'
      Token.dataTok (String.mk run) :: tokGo fuel ((c :: rest).drop run.length)

/-- Modelled from the spec: the external standard HTML tokenizer (an external
collaborator, not repository source).  The model always succeeds; the failure
path of `clean_html` is universally quantified over tokenizers instead. -/
def tokenizeModel (s : String) : Except String (List Token) :=
  .ok (tokGo (s.toList.length + 1) s.toList)

/-- `clean_html` instantiated with the modelled tokenizer, keeping only the
returned text. -/
def cleanStr (cfg : Config) (html : String) : String :=
  (clean_html tokenizeModel cfg html).1

/-- A tokenizer that always fails, for exercising the fallback path. -/
def failTokenize (msg : String) : String → Except String (List Token) :=
  fun _ => .error msg

/-- Is an event a pure text event? -/
def Token.isData : Token → Bool
  | .dataTok _ => true
  | _ => false

/-! ### Predicates used by the claim statements. -/

/-- The tag name a fragment's markup carries, when the fragment is tag markup
(`<b>`, `</b>` and the literal inline anchors count as markup of `b` and `a`;
text, entity, comment and marker fragments carry none). -/
def Frag.tagNameOf : Frag → Option String
  | .tagOpen n _ => some n
  | .tagSelfClose n _ => some n
  | .tagClose n => some n
  | .boldOpen => some "b"
  | .boldClose => some "b"
  | .inlineAnchorOpen _ => some "a"
  | .inlineAnchorClose => some "a"
  | _ => none

/-- Every piece of tag markup in the fragment list names a kept tag. -/
def outKeepOk (cfg : Config) (l : List Frag) : Prop :=
  ∀ f ∈ l, ∀ n, f.tagNameOf = some n → n ∈ cfg.keep_tags

/-- One attribute name is sound for `tag`: allow-listed, and not one of the
stripped names when the corresponding strip flag is on. -/
def attrOk (cfg : Config) (tag name : String) : Prop :=
  (name ∈ keepAttrsFor cfg tag ∨ name ∈ keepAttrsFor cfg "*") ∧
  (cfg.remove_classes → name ≠ "class") ∧
  (cfg.remove_ids → name ≠ "id") ∧
  (cfg.remove_inline_styles → name ≠ "style") ∧
  (cfg.remove_data_attributes → name.startsWith "data-" = false)

/-- Attribute soundness of one output fragment (the literal inline anchor
carries exactly `href`, which must be allow-listed for `a`). -/
def fragAttrsOk (cfg : Config) : Frag → Prop
  | .tagOpen n attrs => ∀ p ∈ attrs, attrOk cfg n p.1
  | .tagSelfClose n attrs => ∀ p ∈ attrs, attrOk cfg n p.1
  | .inlineAnchorOpen _ => attrOk cfg "a" "href"
  | _ => True

/-- Attribute soundness of a fragment list. -/
def outAttrsOk (cfg : Config) (l : List Frag) : Prop :=
  ∀ f ∈ l, fragAttrsOk cfg f

/-- Effect of one tokenizer event on the removal depth while the parser is
inside a removal region. -/
def skipApply (cfg : Config) (d : Nat) : Token → Nat
  | .startTag n _ => if n ∈ cfg.remove_with_content then d + 1 else d
  | .startEndTag n _ => if n ∈ cfg.remove_with_content then d + 1 else d
  | .endTag n => if n ∈ cfg.remove_with_content then d - 1 else d
  | _ => d

/-- The body of a removal region entered at depth `d`: the depth stays
positive after every event and is exactly 1 at the end (so the next matching
end tag closes the region). -/
def skipBody (cfg : Config) (d : Nat) : List Token → Bool
  | [] => d = 1
  | t :: ts => (1 ≤ skipApply cfg d t : Bool) && skipBody cfg (skipApply cfg d t) ts

/-- The link-collection invariant: the link list is duplicate-free, the
membership set mirrors it, and every collected link is non-empty and not an
inline-exception href. -/
def linkInv (s : PState) : Prop :=
  s.links.Nodup ∧ (∀ x, x ∈ s.link_set ↔ x ∈ s.links) ∧
    (∀ x ∈ s.links, x ≠ "" ∧ href_exception x = false)

/-- One attribute makes the dimension `dim` resolve to 1 for the
tracking-pixel check: either the attribute `dim` with value exactly `"1"` or
`"1px"`, or a non-empty `style` attribute whose lowercased value contains
`dim ++ ":"` followed by optional whitespace and `1px`. -/
def dimAttrHit (dim : String) (p : String × Option String) : Bool :=
  (p.1 = dim ∧ (p.2 = some "1" ∨ p.2 = some "1px") : Bool) ||
  (match p.2 with
   | some v => (p.1 = "style" ∧ v ≠ "" : Bool) && searchDimPx (dim ++ ":").toList (lowerStr v).toList
   | none => false)

/-- Did the tokenizer succeed? -/
def exceptOk : Except String (List Token) → Bool
  | .ok _ => true
  | .error _ => false

/-- The event list of a successful tokenizer run (empty on failure). -/
def toksOf : Except String (List Token) → List Token
  | .ok l => l
  | .error _ => []

/-- A token stream describing an already-cleaned document: every tag event
names a kept tag, nothing is in the remove-with-content set, and no start tag
is classified hidden pretext. -/
def cleanedDocOk (ts : List Token) : Bool :=
  ts.all fun t =>
    match t with
    | .startTag n a =>
        (n ∈ defaultConfig.keep_tags : Bool) &&
        !(n ∈ defaultConfig.remove_with_content : Bool) && !(is_hidden_pretext a)
    | .startEndTag n a =>
        (n ∈ defaultConfig.keep_tags : Bool) &&
        !(n ∈ defaultConfig.remove_with_content : Bool) && !(is_hidden_pretext a)
    | .endTag n => (n ∈ defaultConfig.keep_tags : Bool)
    | _ => true
theorem outKeepOk_append1 {cfg : Config} {l : List Frag} {f : Frag} (h : outKeepOk cfg l)
    (hf : ∀ n, f.tagNameOf = some n → n ∈ cfg.keep_tags) : outKeepOk cfg (l ++ [f]) := by
  intro g hg
  rcases List.mem_append.1 hg with hg | hg
  · exact h g hg
  · rcases List.mem_singleton.1 hg with rfl
    exact hf

theorem keptStart_keepOk (tag : String) (attrs : Attrs) (s : PState)
    (hk : tag ∈ defaultConfig.keep_tags) (h : outKeepOk defaultConfig s.output) :
    outKeepOk defaultConfig (handleKeptStart defaultConfig tag attrs s).output := by
  unfold handleKeptStart
  dsimp only
  split_ifs
  all_goals
    repeat
      first
        | exact h
        | (intro n hn
           simp only [Frag.tagNameOf, Option.some.injEq] at hn
           subst hn
           first
             | exact hk
             | decide)
        | apply outKeepOk_append1


theorem anchorStart_keepOk (attrs : Attrs) (s : PState)
    (h : outKeepOk defaultConfig s.output) :
    outKeepOk defaultConfig (handleAnchorStart attrs s).output := by
  unfold handleAnchorStart
  cases hrefAttr attrs with
  | some v =>
    dsimp only
    split_ifs with h1 h2
    · exact outKeepOk_append1 h (by
        intro n hn
        simp only [Frag.tagNameOf, Option.some.injEq] at hn
        subst hn
        decide)
    · exact outKeepOk_append1 h (by intro n hn; simp [Frag.tagNameOf] at hn)
    · exact outKeepOk_append1 h (by intro n hn; simp [Frag.tagNameOf] at hn)
  | none =>
    exact outKeepOk_append1 h (by intro n hn; simp [Frag.tagNameOf] at hn)
theorem keepOk_starttag (n : String) (a : Attrs) (s : PState)
    (h : outKeepOk defaultConfig s.output) :
    outKeepOk defaultConfig (handle_starttag defaultConfig n a s).output := by
  unfold handle_starttag
  dsimp only
  by_cases h1 : n = "title" ∧ s.title = none
  · rw [if_pos h1]; exact h
  rw [if_neg h1]
  by_cases h2 : s.skip_depth > 0
  · rw [if_pos h2]
    by_cases h3 : n ∈ defaultConfig.remove_with_content
    · rw [if_pos h3]; exact h
    · rw [if_neg h3]; exact h
  rw [if_neg h2]
  by_cases h4 : n ∈ defaultConfig.remove_with_content
  · rw [if_pos h4]; exact h
  rw [if_neg h4]
  by_cases h5 : s.pretext_depth > 0
  · rw [if_pos h5]; exact h
  rw [if_neg h5]
  by_cases h6 : is_hidden_pretext a = true
  · rw [if_pos h6]; exact h
  rw [if_neg h6]
  by_cases h7 : defaultConfig.convert_tables_to_paragraphs = true ∧ n ∈ ["table", "thead", "tbody", "tfoot", "tr"]
  · rw [if_pos h7]; exact h
  rw [if_neg h7]
  by_cases h8 : defaultConfig.convert_tables_to_paragraphs = true ∧ n ∈ ["td", "th"]
  · rw [if_pos h8]
    exact outKeepOk_append1 h (fun m hm => by simp [Frag.tagNameOf] at hm)
  rw [if_neg h8]
  by_cases h9 : n = "div"
  · rw [if_pos h9]
    exact outKeepOk_append1 h (fun m hm => by simp [Frag.tagNameOf] at hm)
  rw [if_neg h9]
  by_cases h10 : n = "span" ∧ defaultConfig.remove_span_tags = true
  · rw [if_pos h10]; exact h
  rw [if_neg h10]
  by_cases h11 : n = "img" ∧ is_tracking_pixel a = true
  · rw [if_pos h11]; exact h
  rw [if_neg h11]
  by_cases h12 : renameTag defaultConfig n ∉ defaultConfig.keep_tags
  · rw [if_pos h12]; exact h
  rw [if_neg h12]
  by_cases h13 : renameTag defaultConfig n = "a"
  · rw [if_pos h13]; exact anchorStart_keepOk a s h
  · rw [if_neg h13]; exact keptStart_keepOk _ a s (not_not.mp h12) h

theorem keepOk_endtag (n : String) (s : PState) (h : outKeepOk defaultConfig s.output) :
    outKeepOk defaultConfig (handle_endtag defaultConfig n s).output := by
  unfold handle_endtag
  dsimp only
  by_cases h1 : n = "title" ∧ s.in_title = true
  · rw [if_pos h1]; exact h
  rw [if_neg h1]
  by_cases h2 : s.skip_depth > 0
  · rw [if_pos h2]
    by_cases h3 : n ∈ defaultConfig.remove_with_content
    · rw [if_pos h3]; exact h
    · rw [if_neg h3]; exact h
  rw [if_neg h2]
  by_cases h4 : s.pretext_depth > 0
  · rw [if_pos h4]
    by_cases h5 : s.pretext_depth - 1 = 0
    · rw [if_pos h5]; exact h
    · rw [if_neg h5]; exact h
  rw [if_neg h4]
  by_cases h6 : defaultConfig.convert_tables_to_paragraphs = true ∧ n ∈ ["table", "thead", "tbody", "tfoot", "tr"]
  · rw [if_pos h6]; exact h
  rw [if_neg h6]
  by_cases h7 : defaultConfig.convert_tables_to_paragraphs = true ∧ n ∈ ["td", "th"]
  · rw [if_pos h7]
    exact outKeepOk_append1 h (fun m hm => by simp [Frag.tagNameOf] at hm)
  rw [if_neg h7]
  by_cases h8 : n = "div"
  · rw [if_pos h8]
    exact outKeepOk_append1 h (fun m hm => by simp [Frag.tagNameOf] at hm)
  rw [if_neg h8]
  by_cases h9 : n = "span" ∧ defaultConfig.remove_span_tags = true
  · rw [if_pos h9]; exact h
  rw [if_neg h9]
  by_cases h10 : renameTag defaultConfig n ∈ defaultConfig.keep_tags
  case neg => rw [if_neg h10]; exact h
  rw [if_pos h10]
  by_cases h11 : renameTag defaultConfig n = "a"
  · rw [if_pos h11]
    by_cases h12 : s.inline_anchor_depth > 0
    · rw [if_pos h12]
      exact outKeepOk_append1 h (fun m hm => by
        simp only [Frag.tagNameOf, Option.some.injEq] at hm; subst hm; decide)
    · rw [if_neg h12]
      exact outKeepOk_append1 h (fun m hm => by simp [Frag.tagNameOf] at hm)
  rw [if_neg h11]
  by_cases h13 : s.bold_tag_stack ≠ [] ∧ s.bold_tag_stack.getLast? = some (renameTag defaultConfig n)
  · rw [if_pos h13]
    refine outKeepOk_append1 (outKeepOk_append1 h ?_) ?_
    · intro m hm
      simp only [Frag.tagNameOf, Option.some.injEq] at hm
      subst hm
      decide
    · intro m hm
      simp only [Frag.tagNameOf, Option.some.injEq] at hm
      subst hm
      exact h10
  · rw [if_neg h13]
    exact outKeepOk_append1 h (fun m hm => by
      simp only [Frag.tagNameOf, Option.some.injEq] at hm; subst hm; exact h10)

theorem keepOk_step (t : Token) (s : PState) (h : outKeepOk defaultConfig s.output) :
    outKeepOk defaultConfig (processToken defaultConfig s t).output := by
  cases t with
  | startTag n a => exact keepOk_starttag n a s h
  | startEndTag n a => exact keepOk_starttag n a s h
  | endTag n => exact keepOk_endtag n s h
  | dataTok d =>
    show outKeepOk defaultConfig (handle_data d s).output
    unfold handle_data
    split_ifs
    all_goals
      first
        | exact h
        | exact outKeepOk_append1 h (by intro m hm; simp [Frag.tagNameOf] at hm)
  | entityRef n =>
    show outKeepOk defaultConfig (handle_entityref n s).output
    unfold handle_entityref
    split_ifs
    all_goals
      first
        | exact h
        | exact outKeepOk_append1 h (by intro m hm; simp [Frag.tagNameOf] at hm)
  | charRef n =>
    show outKeepOk defaultConfig (handle_charref n s).output
    unfold handle_charref
    split_ifs
    all_goals
      first
        | exact h
        | exact outKeepOk_append1 h (by intro m hm; simp [Frag.tagNameOf] at hm)
  | commentTok d =>
    show outKeepOk defaultConfig (handle_comment defaultConfig d s).output
    unfold handle_comment
    split_ifs
    all_goals
      first
        | exact h
        | exact outKeepOk_append1 h (by intro m hm; simp [Frag.tagNameOf] at hm)

theorem keepOk_feed (ts : List Token) : ∀ (s : PState), outKeepOk defaultConfig s.output →
    outKeepOk defaultConfig (feed defaultConfig ts s).output := by
  induction ts with
  | nil => exact fun s h => h
  | cons t ts ih => exact fun s h => ih _ (keepOk_step t s h)
theorem ne_title_of_mem_remove {r : String} (hr : r ∈ defaultConfig.remove_with_content) :
    r ≠ "title" := by
  intro h
  subst h
  revert hr
  decide

theorem starttag_skip (n : String) (a : Attrs) (s : PState) (h : 1 ≤ s.skip_depth) :
    (handle_starttag defaultConfig n a s).output = s.output ∧
    (handle_starttag defaultConfig n a s).skip_depth =
      (if n ∈ defaultConfig.remove_with_content then s.skip_depth + 1 else s.skip_depth) := by
  unfold handle_starttag
  by_cases h1 : n = "title" ∧ s.title = none
  · rw [if_pos h1]
    obtain ⟨rfl, -⟩ := h1
    rw [if_neg (by decide : ¬ ("title" ∈ defaultConfig.remove_with_content))]
    exact ⟨rfl, rfl⟩
  · rw [if_neg h1, if_pos (show s.skip_depth > 0 from h)]
    by_cases h2 : n ∈ defaultConfig.remove_with_content
    · rw [if_pos h2, if_pos h2]
      exact ⟨rfl, rfl⟩
    · rw [if_neg h2, if_neg h2]
      exact ⟨rfl, rfl⟩

theorem skip_step (t : Token) (s : PState) (h : 1 ≤ s.skip_depth) :
    (processToken defaultConfig s t).output = s.output ∧
    (processToken defaultConfig s t).skip_depth = skipApply defaultConfig s.skip_depth t := by
  cases t with
  | startTag n a => exact starttag_skip n a s h
  | startEndTag n a => exact starttag_skip n a s h
  | endTag n =>
    simp only [processToken, skipApply]
    unfold handle_endtag
    by_cases h1 : n = "title" ∧ s.in_title
    · rw [if_pos h1]
      obtain ⟨rfl, -⟩ := h1
      rw [if_neg (by decide : ¬ ("title" ∈ defaultConfig.remove_with_content))]
      exact ⟨rfl, rfl⟩
    · rw [if_neg h1, if_pos (show s.skip_depth > 0 from h)]
      by_cases h2 : n ∈ defaultConfig.remove_with_content
      · rw [if_pos h2, if_pos h2]
        exact ⟨rfl, rfl⟩
      · rw [if_neg h2, if_neg h2]
        exact ⟨rfl, rfl⟩
  | dataTok d =>
    simp only [processToken, skipApply]
    unfold handle_data
    by_cases h1 : s.in_title
    · rw [if_pos h1]
      exact ⟨rfl, rfl⟩
    · rw [if_neg h1, if_pos (show s.skip_depth > 0 from h)]
      exact ⟨rfl, rfl⟩
  | entityRef n =>
    simp only [processToken, skipApply]
    unfold handle_entityref
    rw [if_pos (show s.skip_depth > 0 from h)]
    exact ⟨rfl, rfl⟩
  | charRef n =>
    simp only [processToken, skipApply]
    unfold handle_charref
    rw [if_pos (show s.skip_depth > 0 from h)]
    exact ⟨rfl, rfl⟩
  | commentTok d =>
    simp only [processToken, skipApply]
    unfold handle_comment
    rw [if_pos (show s.skip_depth > 0 from h)]
    exact ⟨rfl, rfl⟩

theorem skip_feed (body : List Token) : ∀ (s : PState), 1 ≤ s.skip_depth →
    skipBody defaultConfig s.skip_depth body = true →
    (feed defaultConfig body s).output = s.output ∧
    (feed defaultConfig body s).skip_depth = 1 := by
  induction body with
  | nil =>
    intro s h hb
    simp only [skipBody, decide_eq_true_eq] at hb
    exact ⟨rfl, hb⟩
  | cons t ts ih =>
    intro s h hb
    simp only [skipBody, Bool.and_eq_true, decide_eq_true_eq] at hb
    have step := skip_step t s h
    have hfeed : feed defaultConfig (t :: ts) s = feed defaultConfig ts (processToken defaultConfig s t) := rfl
    rw [hfeed]
    have h1 : 1 ≤ (processToken defaultConfig s t).skip_depth := by
      rw [step.2]
      exact hb.1
    have hrec := ih (processToken defaultConfig s t) h1 (by rw [step.2]; exact hb.2)
    exact ⟨by rw [hrec.1, step.1], hrec.2⟩

theorem removed_region (s : PState) (r : String) (attrs : Attrs) (body : List Token)
    (hr : r ∈ defaultConfig.remove_with_content) (hs : s.skip_depth = 0)
    (hb : skipBody defaultConfig 1 body = true) :
    (feed defaultConfig (Token.startTag r attrs :: (body ++ [Token.endTag r])) s).output = s.output := by
  have hrt := ne_title_of_mem_remove hr
  have e1 : feed defaultConfig (Token.startTag r attrs :: (body ++ [Token.endTag r])) s =
      feed defaultConfig [Token.endTag r] (feed defaultConfig body (handle_starttag defaultConfig r attrs s)) := by
    simp only [feed, List.foldl_cons, List.foldl_append]
    rfl
  rw [e1]
  set s1 := handle_starttag defaultConfig r attrs s with hs1
  have hstate : s1 = { s with skip_depth := 1 } := by
    rw [hs1]
    unfold handle_starttag
    rw [if_neg (by simp [hrt]), if_neg (by omega : ¬ s.skip_depth > 0), if_pos hr]
  have hfd := skip_feed body s1 (by rw [hstate]) (by rw [hstate]; exact hb)
  set s2 := feed defaultConfig body s1 with hs2
  have e2 : feed defaultConfig [Token.endTag r] s2 = handle_endtag defaultConfig r s2 := rfl
  rw [e2]
  have hout : (handle_endtag defaultConfig r s2).output = s2.output := by
    unfold handle_endtag
    rw [if_neg (by simp [hrt]), if_pos (show s2.skip_depth > 0 by rw [hfd.2]; exact Nat.zero_lt_one),
      if_pos hr]
  rw [hout, hfd.1, hstate]

theorem filter_cons (cfg : Config) (tag : String) (a : String × Option String) (rest : Attrs) :
    filter_attributes cfg tag (a :: rest) =
      (if a.1 = "class" ∧ cfg.remove_classes then filter_attributes cfg tag rest
       else if a.1 = "id" ∧ cfg.remove_ids then filter_attributes cfg tag rest
       else if a.1 = "style" ∧ cfg.remove_inline_styles then filter_attributes cfg tag rest
       else if a.1.startsWith "data-" ∧ cfg.remove_data_attributes then filter_attributes cfg tag rest
       else if a.1 ∈ keepAttrsFor cfg tag ∨ a.1 ∈ keepAttrsFor cfg "*" then
         (a.1, a.2.getD "") :: filter_attributes cfg tag rest
       else filter_attributes cfg tag rest) := rfl

theorem filter_attrOk (cfg : Config) (tag : String) (attrs : Attrs) :
    ∀ p ∈ filter_attributes cfg tag attrs, attrOk cfg tag p.1 := by
  induction attrs with
  | nil => intro p hp; simp [filter_attributes] at hp
  | cons a rest ih =>
    intro p hp
    rw [filter_cons] at hp
    by_cases h1 : a.1 = "class" ∧ cfg.remove_classes
    · rw [if_pos h1] at hp; exact ih p hp
    rw [if_neg h1] at hp
    by_cases h2 : a.1 = "id" ∧ cfg.remove_ids
    · rw [if_pos h2] at hp; exact ih p hp
    rw [if_neg h2] at hp
    by_cases h3 : a.1 = "style" ∧ cfg.remove_inline_styles
    · rw [if_pos h3] at hp; exact ih p hp
    rw [if_neg h3] at hp
    by_cases h4 : a.1.startsWith "data-" ∧ cfg.remove_data_attributes
    · rw [if_pos h4] at hp; exact ih p hp
    rw [if_neg h4] at hp
    by_cases h5 : a.1 ∈ keepAttrsFor cfg tag ∨ a.1 ∈ keepAttrsFor cfg "*"
    · rw [if_pos h5] at hp
      rcases List.mem_cons.1 hp with rfl | hp
      · refine ⟨h5, ?_, ?_, ?_, ?_⟩
        · intro hc he
          exact h1 ⟨he, hc⟩
        · intro hc he
          exact h2 ⟨he, hc⟩
        · intro hc he
          exact h3 ⟨he, hc⟩
        · intro hc
          by_contra hd
          exact h4 ⟨by simpa using hd, hc⟩
      · exact ih p hp
    · rw [if_neg h5] at hp; exact ih p hp
theorem outAttrsOk_append1 {cfg : Config} {l : List Frag} {f : Frag} (h : outAttrsOk cfg l)
    (hf : fragAttrsOk cfg f) : outAttrsOk cfg (l ++ [f]) := by
  intro g hg
  rcases List.mem_append.1 hg with hg | hg
  · exact h g hg
  · rcases List.mem_singleton.1 hg with rfl
    exact hf

theorem keptStart_attrsOk (tag : String) (attrs : Attrs) (s : PState)
    (h : outAttrsOk defaultConfig s.output) :
    outAttrsOk defaultConfig (handleKeptStart defaultConfig tag attrs s).output := by
  unfold handleKeptStart
  dsimp only
  split_ifs
  all_goals
    first
      | exact outAttrsOk_append1 (outAttrsOk_append1 h (filter_attrOk defaultConfig tag attrs)) trivial
      | exact outAttrsOk_append1 h (filter_attrOk defaultConfig tag attrs)

theorem anchorStart_attrsOk (attrs : Attrs) (s : PState)
    (h : outAttrsOk defaultConfig s.output) :
    outAttrsOk defaultConfig (handleAnchorStart attrs s).output := by
  unfold handleAnchorStart
  cases hrefAttr attrs with
  | some v =>
    dsimp only
    split_ifs
    · refine outAttrsOk_append1 h ?_
      show attrOk defaultConfig "a" "href"
      unfold attrOk
      exact ⟨by decide, by decide, by decide, by decide, by decide⟩
    · exact outAttrsOk_append1 h trivial
    · exact outAttrsOk_append1 h trivial
  | none =>
    exact outAttrsOk_append1 h trivial

theorem attrsOk_starttag (n : String) (a : Attrs) (s : PState)
    (h : outAttrsOk defaultConfig s.output) :
    outAttrsOk defaultConfig (handle_starttag defaultConfig n a s).output := by
  unfold handle_starttag
  dsimp only
  by_cases h1 : n = "title" ∧ s.title = none
  · rw [if_pos h1]; exact h
  rw [if_neg h1]
  by_cases h2 : s.skip_depth > 0
  · rw [if_pos h2]
    by_cases h3 : n ∈ defaultConfig.remove_with_content
    · rw [if_pos h3]; exact h
    · rw [if_neg h3]; exact h
  rw [if_neg h2]
  by_cases h4 : n ∈ defaultConfig.remove_with_content
  · rw [if_pos h4]; exact h
  rw [if_neg h4]
  by_cases h5 : s.pretext_depth > 0
  · rw [if_pos h5]; exact h
  rw [if_neg h5]
  by_cases h6 : is_hidden_pretext a = true
  · rw [if_pos h6]; exact h
  rw [if_neg h6]
  by_cases h7 : defaultConfig.convert_tables_to_paragraphs = true ∧ n ∈ ["table", "thead", "tbody", "tfoot", "tr"]
  · rw [if_pos h7]; exact h
  rw [if_neg h7]
  by_cases h8 : defaultConfig.convert_tables_to_paragraphs = true ∧ n ∈ ["td", "th"]
  · rw [if_pos h8]
    exact outAttrsOk_append1 h trivial
  rw [if_neg h8]
  by_cases h9 : n = "div"
  · rw [if_pos h9]
    exact outAttrsOk_append1 h trivial
  rw [if_neg h9]
  by_cases h10 : n = "span" ∧ defaultConfig.remove_span_tags = true
  · rw [if_pos h10]; exact h
  rw [if_neg h10]
  by_cases h11 : n = "img" ∧ is_tracking_pixel a = true
  · rw [if_pos h11]; exact h
  rw [if_neg h11]
  by_cases h12 : renameTag defaultConfig n ∉ defaultConfig.keep_tags
  · rw [if_pos h12]; exact h
  rw [if_neg h12]
  by_cases h13 : renameTag defaultConfig n = "a"
  · rw [if_pos h13]; exact anchorStart_attrsOk a s h
  · rw [if_neg h13]; exact keptStart_attrsOk _ a s h

theorem attrsOk_endtag (n : String) (s : PState)
    (h : outAttrsOk defaultConfig s.output) :
    outAttrsOk defaultConfig (handle_endtag defaultConfig n s).output := by
  unfold handle_endtag
  dsimp only
  by_cases h1 : n = "title" ∧ s.in_title = true
  · rw [if_pos h1]; exact h
  rw [if_neg h1]
  by_cases h2 : s.skip_depth > 0
  · rw [if_pos h2]
    by_cases h3 : n ∈ defaultConfig.remove_with_content
    · rw [if_pos h3]; exact h
    · rw [if_neg h3]; exact h
  rw [if_neg h2]
  by_cases h4 : s.pretext_depth > 0
  · rw [if_pos h4]
    by_cases h5 : s.pretext_depth - 1 = 0
    · rw [if_pos h5]; exact h
    · rw [if_neg h5]; exact h
  rw [if_neg h4]
  by_cases h6 : defaultConfig.convert_tables_to_paragraphs = true ∧ n ∈ ["table", "thead", "tbody", "tfoot", "tr"]
  · rw [if_pos h6]; exact h
  rw [if_neg h6]
  by_cases h7 : defaultConfig.convert_tables_to_paragraphs = true ∧ n ∈ ["td", "th"]
  · rw [if_pos h7]
    exact outAttrsOk_append1 h trivial
  rw [if_neg h7]
  by_cases h8 : n = "div"
  · rw [if_pos h8]
    exact outAttrsOk_append1 h trivial
  rw [if_neg h8]
  by_cases h9 : n = "span" ∧ defaultConfig.remove_span_tags = true
  · rw [if_pos h9]; exact h
  rw [if_neg h9]
  by_cases h10 : renameTag defaultConfig n ∈ defaultConfig.keep_tags
  case neg => rw [if_neg h10]; exact h
  rw [if_pos h10]
  by_cases h11 : renameTag defaultConfig n = "a"
  · rw [if_pos h11]
    by_cases h12 : s.inline_anchor_depth > 0
    · rw [if_pos h12]
      exact outAttrsOk_append1 h trivial
    · rw [if_neg h12]
      exact outAttrsOk_append1 h trivial
  rw [if_neg h11]
  by_cases h13 : s.bold_tag_stack ≠ [] ∧ s.bold_tag_stack.getLast? = some (renameTag defaultConfig n)
  · rw [if_pos h13]
    exact outAttrsOk_append1 (outAttrsOk_append1 h trivial) trivial
  · rw [if_neg h13]
    exact outAttrsOk_append1 h trivial

theorem attrsOk_step (t : Token) (s : PState) (h : outAttrsOk defaultConfig s.output) :
    outAttrsOk defaultConfig (processToken defaultConfig s t).output := by
  cases t with
  | startTag n a => exact attrsOk_starttag n a s h
  | startEndTag n a => exact attrsOk_starttag n a s h
  | endTag n => exact attrsOk_endtag n s h
  | dataTok d =>
    show outAttrsOk defaultConfig (handle_data d s).output
    unfold handle_data
    split_ifs
    all_goals
      first
        | exact h
        | exact outAttrsOk_append1 h trivial
  | entityRef n =>
    show outAttrsOk defaultConfig (handle_entityref n s).output
    unfold handle_entityref
    split_ifs
    all_goals
      first
        | exact h
        | exact outAttrsOk_append1 h trivial
  | charRef n =>
    show outAttrsOk defaultConfig (handle_charref n s).output
    unfold handle_charref
    split_ifs
    all_goals
      first
        | exact h
        | exact outAttrsOk_append1 h trivial
  | commentTok d =>
    show outAttrsOk defaultConfig (handle_comment defaultConfig d s).output
    unfold handle_comment
    split_ifs
    all_goals
      first
        | exact h
        | exact outAttrsOk_append1 h trivial

theorem attrsOk_feed (ts : List Token) : ∀ (s : PState), outAttrsOk defaultConfig s.output →
    outAttrsOk defaultConfig (feed defaultConfig ts s).output := by
  induction ts with
  | nil => exact fun s h => h
  | cons t ts ih => exact fun s h => ih _ (attrsOk_step t s h)

theorem keptStart_links (cfg : Config) (tag : String) (attrs : Attrs) (s : PState) :
    (handleKeptStart cfg tag attrs s).links = s.links ∧
    (handleKeptStart cfg tag attrs s).link_set = s.link_set := by
  unfold handleKeptStart
  dsimp only
  split_ifs <;> exact ⟨rfl, rfl⟩

theorem anchorStart_linkInv (attrs : Attrs) (s : PState) (hinv : linkInv s) :
    linkInv (handleAnchorStart attrs s) := by
  obtain ⟨hnd, hiff, hgood⟩ := hinv
  unfold handleAnchorStart
  cases hrefAttr attrs with
  | some v =>
    dsimp only
    split_ifs with h1 h2
    · exact ⟨hnd, hiff, hgood⟩
    · refine ⟨?_, ?_, ?_⟩
      · show (s.links ++ [v]).Nodup
        rw [List.nodup_append]
        refine ⟨hnd, List.nodup_singleton v, ?_⟩
        intro x hx hx1
        rcases List.mem_singleton.1 hx1 with rfl
        exact h2.2 ((hiff x).2 hx)
      · intro x
        show x ∈ s.link_set ++ [v] ↔ x ∈ s.links ++ [v]
        simp only [List.mem_append]
        exact or_congr_left (hiff x)
      · intro x hx
        rcases List.mem_append.1 hx with hx | hx
        · exact hgood x hx
        · rcases List.mem_singleton.1 hx with rfl
          refine ⟨h2.1, ?_⟩
          by_contra hb
          exact h1 ⟨h2.1, by simpa using hb⟩
    · exact ⟨hnd, hiff, hgood⟩
  | none => exact ⟨hnd, hiff, hgood⟩

theorem linkInv_starttag (n : String) (a : Attrs) (s : PState) (hinv : linkInv s) :
    linkInv (handle_starttag defaultConfig n a s) := by
  unfold handle_starttag
  dsimp only
  by_cases h1 : n = "title" ∧ s.title = none
  · rw [if_pos h1]; exact hinv
  rw [if_neg h1]
  by_cases h2 : s.skip_depth > 0
  · rw [if_pos h2]
    by_cases h3 : n ∈ defaultConfig.remove_with_content
    · rw [if_pos h3]; exact hinv
    · rw [if_neg h3]; exact hinv
  rw [if_neg h2]
  by_cases h4 : n ∈ defaultConfig.remove_with_content
  · rw [if_pos h4]; exact hinv
  rw [if_neg h4]
  by_cases h5 : s.pretext_depth > 0
  · rw [if_pos h5]; exact hinv
  rw [if_neg h5]
  by_cases h6 : is_hidden_pretext a = true
  · rw [if_pos h6]; exact hinv
  rw [if_neg h6]
  by_cases h7 : defaultConfig.convert_tables_to_paragraphs = true ∧ n ∈ ["table", "thead", "tbody", "tfoot", "tr"]
  · rw [if_pos h7]; exact hinv
  rw [if_neg h7]
  by_cases h8 : defaultConfig.convert_tables_to_paragraphs = true ∧ n ∈ ["td", "th"]
  · rw [if_pos h8]; exact hinv
  rw [if_neg h8]
  by_cases h9 : n = "div"
  · rw [if_pos h9]; exact hinv
  rw [if_neg h9]
  by_cases h10 : n = "span" ∧ defaultConfig.remove_span_tags = true
  · rw [if_pos h10]; exact hinv
  rw [if_neg h10]
  by_cases h11 : n = "img" ∧ is_tracking_pixel a = true
  · rw [if_pos h11]; exact hinv
  rw [if_neg h11]
  by_cases h12 : renameTag defaultConfig n ∉ defaultConfig.keep_tags
  · rw [if_pos h12]; exact hinv
  rw [if_neg h12]
  by_cases h13 : renameTag defaultConfig n = "a"
  · rw [if_pos h13]; exact anchorStart_linkInv a s hinv
  · rw [if_neg h13]
    obtain ⟨hnd, hiff, hgood⟩ := hinv
    have hl := keptStart_links defaultConfig (renameTag defaultConfig n) a s
    exact ⟨hl.1 ▸ hnd, fun x => hl.2 ▸ hl.1 ▸ hiff x, hl.1 ▸ hgood⟩

theorem linkInv_endtag (n : String) (s : PState) (hinv : linkInv s) :
    linkInv (handle_endtag defaultConfig n s) := by
  unfold handle_endtag
  dsimp only
  by_cases h1 : n = "title" ∧ s.in_title = true
  · rw [if_pos h1]; exact hinv
  rw [if_neg h1]
  by_cases h2 : s.skip_depth > 0
  · rw [if_pos h2]
    by_cases h3 : n ∈ defaultConfig.remove_with_content
    · rw [if_pos h3]; exact hinv
    · rw [if_neg h3]; exact hinv
  rw [if_neg h2]
  by_cases h4 : s.pretext_depth > 0
  · rw [if_pos h4]
    by_cases h5 : s.pretext_depth - 1 = 0
    · rw [if_pos h5]; exact hinv
    · rw [if_neg h5]; exact hinv
  rw [if_neg h4]
  by_cases h6 : defaultConfig.convert_tables_to_paragraphs = true ∧ n ∈ ["table", "thead", "tbody", "tfoot", "tr"]
  · rw [if_pos h6]; exact hinv
  rw [if_neg h6]
  by_cases h7 : defaultConfig.convert_tables_to_paragraphs = true ∧ n ∈ ["td", "th"]
  · rw [if_pos h7]; exact hinv
  rw [if_neg h7]
  by_cases h8 : n = "div"
  · rw [if_pos h8]; exact hinv
  rw [if_neg h8]
  by_cases h9 : n = "span" ∧ defaultConfig.remove_span_tags = true
  · rw [if_pos h9]; exact hinv
  rw [if_neg h9]
  by_cases h10 : renameTag defaultConfig n ∈ defaultConfig.keep_tags
  case neg => rw [if_neg h10]; exact hinv
  rw [if_pos h10]
  by_cases h11 : renameTag defaultConfig n = "a"
  · rw [if_pos h11]
    by_cases h12 : s.inline_anchor_depth > 0
    · rw [if_pos h12]; exact hinv
    · rw [if_neg h12]; exact hinv
  rw [if_neg h11]
  by_cases h13 : s.bold_tag_stack ≠ [] ∧ s.bold_tag_stack.getLast? = some (renameTag defaultConfig n)
  · rw [if_pos h13]; exact hinv
  · rw [if_neg h13]; exact hinv

theorem linkInv_step (t : Token) (s : PState) (hinv : linkInv s) :
    linkInv (processToken defaultConfig s t) := by
  cases t with
  | startTag n a => exact linkInv_starttag n a s hinv
  | startEndTag n a => exact linkInv_starttag n a s hinv
  | endTag n => exact linkInv_endtag n s hinv
  | dataTok d =>
    show linkInv (handle_data d s)
    unfold handle_data
    split_ifs <;> exact hinv
  | entityRef n =>
    show linkInv (handle_entityref n s)
    unfold handle_entityref
    split_ifs <;> exact hinv
  | charRef n =>
    show linkInv (handle_charref n s)
    unfold handle_charref
    split_ifs <;> exact hinv
  | commentTok d =>
    show linkInv (handle_comment defaultConfig d s)
    unfold handle_comment
    split_ifs <;> exact hinv

theorem linkInv_feed (ts : List Token) : ∀ (s : PState), linkInv s →
    linkInv (feed defaultConfig ts s) := by
  induction ts with
  | nil => exact fun s h => h
  | cons t ts ih => exact fun s h => ih _ (linkInv_step t s h)

theorem anchor_clear_start (s : PState) (attrs : Attrs) (v : String)
    (hs : s.skip_depth = 0) (hp : s.pretext_depth = 0) (hh : is_hidden_pretext attrs = false)
    (href : hrefAttr attrs = some v) (hne : v ≠ "") :
    (href_exception v = true →
      handle_starttag defaultConfig "a" attrs s =
        { s with output := s.output ++ [Frag.inlineAnchorOpen v],
                 inline_anchor_depth := s.inline_anchor_depth + 1 }) ∧
    (href_exception v = false →
      handle_starttag defaultConfig "a" attrs s =
        { s with output := s.output ++ [Frag.linkOpen],
                 links := if v ∈ s.link_set then s.links else s.links ++ [v],
                 link_set := if v ∈ s.link_set then s.link_set else s.link_set ++ [v] }) := by
  have e1 : handle_starttag defaultConfig "a" attrs s = handleAnchorStart attrs s := by
    unfold handle_starttag
    rw [if_neg (by simp : ¬ ("a" = "title" ∧ s.title = none)),
      if_neg (by omega : ¬ s.skip_depth > 0),
      if_neg (by decide : ¬ ("a" ∈ defaultConfig.remove_with_content)),
      if_neg (by omega : ¬ s.pretext_depth > 0),
      if_neg (by simp [hh] : ¬ is_hidden_pretext attrs = true),
      if_neg (by decide : ¬ (defaultConfig.convert_tables_to_paragraphs = true ∧
        "a" ∈ ["table", "thead", "tbody", "tfoot", "tr"])),
      if_neg (by decide : ¬ (defaultConfig.convert_tables_to_paragraphs = true ∧ "a" ∈ ["td", "th"])),
      if_neg (by decide : ¬ ("a" = "div")),
      if_neg (by decide : ¬ ("a" = "span" ∧ defaultConfig.remove_span_tags = true)),
      if_neg (by intro hc; exact absurd hc.1 (by decide))]
    rw [show renameTag defaultConfig "a" = "a" from rfl]
    rw [if_neg (by decide : ¬ ("a" ∉ defaultConfig.keep_tags)), if_pos rfl]
  rw [e1]
  unfold handleAnchorStart
  rw [href]
  dsimp only
  constructor
  · intro hexc
    rw [if_pos ⟨hne, hexc⟩]
  · intro hexc
    rw [if_neg (fun hc => by rw [hexc] at hc; exact absurd hc.2 (by simp))]
    by_cases hmem : v ∈ s.link_set
    · rw [if_neg (fun hc => hc.2 hmem), if_pos hmem, if_pos hmem]
    · rw [if_pos ⟨hne, hmem⟩, if_neg hmem, if_neg hmem]

theorem anchor_clear_end (s : PState) (hs : s.skip_depth = 0) (hp : s.pretext_depth = 0) :
    (s.inline_anchor_depth > 0 →
      handle_endtag defaultConfig "a" s =
        { s with output := s.output ++ [Frag.inlineAnchorClose],
                 inline_anchor_depth := s.inline_anchor_depth - 1 }) ∧
    (s.inline_anchor_depth = 0 →
      handle_endtag defaultConfig "a" s =
        { s with output := s.output ++ [Frag.linkClose] }) := by
  unfold handle_endtag
  rw [if_neg (by simp : ¬ ("a" = "title" ∧ s.in_title = true)),
    if_neg (by omega : ¬ s.skip_depth > 0),
    if_neg (by omega : ¬ s.pretext_depth > 0),
    if_neg (by decide : ¬ (defaultConfig.convert_tables_to_paragraphs = true ∧
      "a" ∈ ["table", "thead", "tbody", "tfoot", "tr"])),
    if_neg (by decide : ¬ (defaultConfig.convert_tables_to_paragraphs = true ∧ "a" ∈ ["td", "th"])),
    if_neg (by decide : ¬ ("a" = "div")),
    if_neg (by decide : ¬ ("a" = "span" ∧ defaultConfig.remove_span_tags = true))]
  rw [show renameTag defaultConfig "a" = "a" from rfl]
  rw [if_pos (by decide : "a" ∈ defaultConfig.keep_tags), if_pos rfl]
  constructor
  · intro hd
    rw [if_pos hd]
  · intro hd
    rw [if_neg (by omega : ¬ s.inline_anchor_depth > 0)]
theorem pretext_flush (tag : String) (s : PState)
    (ht : ¬ (tag = "title" ∧ s.in_title = true)) (hs : s.skip_depth = 0)
    (hp : s.pretext_depth = 1) :
    (handle_endtag defaultConfig tag s).pretexts =
      (if pretextClean (String.join s.pretext_content) = "" then s.pretexts
       else s.pretexts ++ [pretextClean (String.join s.pretext_content)]) ∧
    (handle_endtag defaultConfig tag s).pretext_depth = 0 ∧
    (handle_endtag defaultConfig tag s).pretext_content = [] := by
  unfold handle_endtag
  rw [if_neg ht, if_neg (by omega : ¬ s.skip_depth > 0),
    if_pos (by omega : s.pretext_depth > 0), if_pos (by omega : s.pretext_depth - 1 = 0)]
  dsimp only
  exact ⟨rfl, rfl, rfl⟩

theorem br_end_clear (s : PState) (hs : s.skip_depth = 0) (hp : s.pretext_depth = 0)
    (hb : s.bold_tag_stack = []) :
    handle_endtag defaultConfig "br" s = { s with output := s.output ++ [Frag.tagClose "br"] } := by
  unfold handle_endtag
  rw [if_neg (by simp : ¬ ("br" = "title" ∧ s.in_title = true)),
    if_neg (by omega : ¬ s.skip_depth > 0),
    if_neg (by omega : ¬ s.pretext_depth > 0),
    if_neg (by decide : ¬ (defaultConfig.convert_tables_to_paragraphs = true ∧
      "br" ∈ ["table", "thead", "tbody", "tfoot", "tr"])),
    if_neg (by decide : ¬ (defaultConfig.convert_tables_to_paragraphs = true ∧ "br" ∈ ["td", "th"])),
    if_neg (by decide : ¬ ("br" = "div")),
    if_neg (by decide : ¬ ("br" = "span" ∧ defaultConfig.remove_span_tags = true))]
  rw [show renameTag defaultConfig "br" = "br" from rfl]
  rw [if_pos (by decide : "br" ∈ defaultConfig.keep_tags), if_neg (by decide : ¬ ("br" = "a"))]
  dsimp only
  rw [if_neg (fun hc => hc.1 hb)]

theorem hidden_iff (attrs : Attrs) :
    is_hidden_pretext attrs = true ↔
      ∃ p ∈ attrs, p.1 = "style" ∧ ∃ v, p.2 = some v ∧ v ≠ "" ∧
        ∃ pat ∈ hiddenPatterns, containsStr pat (lowerStr v) = true := by
  unfold is_hidden_pretext
  rw [List.any_eq_true]
  constructor
  · rintro ⟨p, hp, hcond⟩
    rw [Bool.and_eq_true, beq_iff_eq] at hcond
    obtain ⟨hsty, hm⟩ := hcond
    cases hv : p.2 with
    | none => rw [hv] at hm; exact absurd hm (by simp)
    | some v =>
      rw [hv] at hm
      simp only [Bool.and_eq_true, decide_eq_true_eq, List.any_eq_true] at hm
      exact ⟨p, hp, hsty, v, hv, hm.1, hm.2⟩
  · rintro ⟨p, hp, hsty, v, hv, hne, pat, hpat, hcont⟩
    refine ⟨p, hp, ?_⟩
    rw [Bool.and_eq_true, beq_iff_eq, hv]
    refine ⟨hsty, ?_⟩
    simp only [Bool.and_eq_true, decide_eq_true_eq, List.any_eq_true]
    exact ⟨hne, pat, hpat, hcont⟩

theorem tracking_iff (attrs : Attrs) :
    is_tracking_pixel attrs = true ↔
      attrs.any (dimAttrHit "width") = true ∧ attrs.any (dimAttrHit "height") = true := by
  have aux : ∀ (l : Attrs) (wh : Bool × Bool),
      l.foldl (fun (wh : Bool × Bool) (p : String × Option String) =>
        if p.1 = "width" ∧ (p.2 = some "1" ∨ p.2 = some "1px") then (true, wh.2)
        else if p.1 = "height" ∧ (p.2 = some "1" ∨ p.2 = some "1px") then (wh.1, true)
        else
          match p.2 with
          | some v =>
            if p.1 = "style" ∧ v ≠ "" then
              (wh.1 || searchDimPx "width:".toList (lowerStr v).toList,
               wh.2 || searchDimPx "height:".toList (lowerStr v).toList)
            else wh
          | none => wh) wh =
      (wh.1 || l.any (dimAttrHit "width"), wh.2 || l.any (dimAttrHit "height")) := by
    intro l
    induction l with
    | nil => intro wh; simp
    | cons p rest ih =>
      intro wh
      rw [List.foldl_cons, ih]
      have hstep : (if p.1 = "width" ∧ (p.2 = some "1" ∨ p.2 = some "1px") then (true, wh.2)
          else if p.1 = "height" ∧ (p.2 = some "1" ∨ p.2 = some "1px") then (wh.1, true)
          else
            match p.2 with
            | some v =>
              if p.1 = "style" ∧ v ≠ "" then
                (wh.1 || searchDimPx "width:".toList (lowerStr v).toList,
                 wh.2 || searchDimPx "height:".toList (lowerStr v).toList)
              else wh
            | none => wh) = (wh.1 || dimAttrHit "width" p, wh.2 || dimAttrHit "height" p) := by
        by_cases h1 : p.1 = "width" ∧ (p.2 = some "1" ∨ p.2 = some "1px")
        · rw [if_pos h1]
          have hw : dimAttrHit "width" p = true := by
            unfold dimAttrHit
            simp [h1.1, h1.2]
          have hh : dimAttrHit "height" p = false := by
            unfold dimAttrHit
            cases hpv : p.2 with
            | none => simp [h1.1]
            | some v => simp [h1.1]
          rw [hw, hh]
          simp
        rw [if_neg h1]
        by_cases h2 : p.1 = "height" ∧ (p.2 = some "1" ∨ p.2 = some "1px")
        · rw [if_pos h2]
          have hw : dimAttrHit "width" p = false := by
            unfold dimAttrHit
            cases hpv : p.2 with
            | none => simp [h2.1]
            | some v => simp [h2.1]
          have hh : dimAttrHit "height" p = true := by
            unfold dimAttrHit
            simp [h2.1, h2.2]
          rw [hw, hh]
          simp
        rw [if_neg h2]
        cases hpv : p.2 with
        | none =>
          have hw : dimAttrHit "width" p = false := by
            unfold dimAttrHit
            rw [hpv]
            simp
          have hh : dimAttrHit "height" p = false := by
            unfold dimAttrHit
            rw [hpv]
            simp
          rw [hw, hh]
          simp
        | some v =>
          dsimp only
          by_cases h3 : p.1 = "style" ∧ v ≠ ""
          · rw [if_pos h3]
            have hw : dimAttrHit "width" p = searchDimPx "width:".toList (lowerStr v).toList := by
              unfold dimAttrHit
              have : ¬ (p.1 = "width" ∧ (p.2 = some "1" ∨ p.2 = some "1px")) := h1
              simp [hpv, h3.1, h3.2]
            have hh : dimAttrHit "height" p = searchDimPx "height:".toList (lowerStr v).toList := by
              unfold dimAttrHit
              simp [hpv, h3.1, h3.2]
            rw [hw, hh]
          · rw [if_neg h3]
            have hw : dimAttrHit "width" p = false := by
              unfold dimAttrHit
              rw [hpv]
              simp only [Bool.or_eq_false_iff, Bool.and_eq_false_iff]
              constructor
              · simp only [decide_eq_false_iff_not]
                intro hc
                exact h1 (by rw [hpv]; exact hc)
              · left
                simp only [decide_eq_false_iff_not]
                exact h3
            have hh : dimAttrHit "height" p = false := by
              unfold dimAttrHit
              rw [hpv]
              simp only [Bool.or_eq_false_iff, Bool.and_eq_false_iff]
              constructor
              · simp only [decide_eq_false_iff_not]
                intro hc
                exact h2 (by rw [hpv]; exact hc)
              · left
                simp only [decide_eq_false_iff_not]
                exact h3
            rw [hw, hh]
            simp
      rw [hstep]
      simp [List.any_cons, Bool.or_assoc]
  unfold is_tracking_pixel
  dsimp only
  rw [aux attrs (false, false)]
  simp

theorem img_clear_output (s : PState) (attrs : Attrs)
    (hs : s.skip_depth = 0) (hp : s.pretext_depth = 0) (hh : is_hidden_pretext attrs = false) :
    (handle_starttag defaultConfig "img" attrs s).output =
      (if is_tracking_pixel attrs = true then s.output
       else s.output ++ [Frag.tagSelfClose "img" (filter_attributes defaultConfig "img" attrs)]) := by
  unfold handle_starttag
  rw [if_neg (by simp : ¬ ("img" = "title" ∧ s.title = none)),
    if_neg (by omega : ¬ s.skip_depth > 0),
    if_neg (by decide : ¬ ("img" ∈ defaultConfig.remove_with_content)),
    if_neg (by omega : ¬ s.pretext_depth > 0),
    if_neg (by simp [hh] : ¬ is_hidden_pretext attrs = true),
    if_neg (by decide : ¬ (defaultConfig.convert_tables_to_paragraphs = true ∧
      "img" ∈ ["table", "thead", "tbody", "tfoot", "tr"])),
    if_neg (by decide : ¬ (defaultConfig.convert_tables_to_paragraphs = true ∧ "img" ∈ ["td", "th"])),
    if_neg (by decide : ¬ ("img" = "div")),
    if_neg (by decide : ¬ ("img" = "span" ∧ defaultConfig.remove_span_tags = true))]
  by_cases htr : is_tracking_pixel attrs = true
  · rw [if_pos ⟨rfl, htr⟩, if_pos htr]
  · rw [if_neg (fun hc => htr hc.2), if_neg htr]
    rw [show renameTag defaultConfig "img" = "img" from rfl]
    rw [if_neg (by decide : ¬ ("img" ∉ defaultConfig.keep_tags)),
      if_neg (by decide : ¬ ("img" = "a"))]
    unfold handleKeptStart
    dsimp only
    cases hbold : has_bold_style attrs with
    | false => simp [selfClosingTags]
    | true => simp [selfClosingTags]

/-- Claim C1: for every input string on which the tokenizer raises an error,
`clean_html` returns the original input string unchanged (never a partial
rewrite) and separately records the failure detail message
(`"HTML Cleaner: Parse error - " ++ msg`, the string displayed via
`sublime.error_message`). -/
theorem spec_c1_parse_failure_fallback
    (tokenize : String → Except String (List Token)) (cfg : Config) (html msg : String)
    (h : tokenize html = .error msg) :
    clean_html tokenize cfg html = (html, some ("HTML Cleaner: Parse error - " ++ msg)) := by
  unfold clean_html
  rw [h]

/-- Witness for C1 at a concrete failing tokenizer and input. -/
theorem spec_c1_parse_failure_fallback_witness :
    clean_html (failTokenize "boom") defaultConfig "<p>x</p>" =
      ("<p>x</p>", some ("HTML Cleaner: Parse error - boom")) :=
  spec_c1_parse_failure_fallback (failTokenize "boom") defaultConfig "<p>x</p>" "boom" rfl

/-- Claim C2: with the default configuration, (a) every piece of tag markup in
the rewriter output of any token stream names a tag of the keep-set, and
(b) a remove-with-content element together with its whole balanced body of
descendants (same-named nested removable tags included, tracked by the depth
counter) contributes nothing to the output. -/
theorem spec_c2_tag_universe :
    (∀ (ts : List Token), outKeepOk defaultConfig (feed defaultConfig ts initState).output) ∧
    (∀ (s : PState) (r : String) (attrs : Attrs) (body : List Token),
      r ∈ defaultConfig.remove_with_content → s.skip_depth = 0 →
      skipBody defaultConfig 1 body = true →
      (feed defaultConfig (Token.startTag r attrs :: (body ++ [Token.endTag r])) s).output =
        s.output) := by
  constructor
  · intro ts
    exact keepOk_feed ts initState (fun f hf => absurd hf (List.not_mem_nil f))
  · exact fun s r attrs body hr hs hb => removed_region s r attrs body hr hs hb

/-- Witness for C2: a kept paragraph tag is in the keep-set, and a `script`
element with a nested same-named `script` leaves the output untouched. -/
theorem spec_c2_tag_universe_witness :
    ("p" ∈ defaultConfig.keep_tags) ∧
    (feed defaultConfig (Token.startTag "script" [] ::
      ([Token.dataTok "evil", Token.startTag "script" [], Token.endTag "script"] ++
        [Token.endTag "script"])) initState).output = initState.output := by
  constructor
  · exact spec_c2_tag_universe.1 [Token.startTag "p" []] (Frag.tagOpen "p" []) (by decide) "p" rfl
  · exact spec_c2_tag_universe.2 initState "script" []
      [Token.dataTok "evil", Token.startTag "script" [], Token.endTag "script"]
      (by decide) rfl (by decide)

/-- Claim C3: with the default configuration, every attribute present on a
kept tag instance in the rewriter output is in that tag's allow-list or the
wildcard allow-list, and `class`, `id`, `style` and `data-*` attributes never
appear (the strip flags are all on in the default configuration). -/
theorem spec_c3_attribute_allowlist :
    ∀ (ts : List Token), outAttrsOk defaultConfig (feed defaultConfig ts initState).output := by
  intro ts
  exact attrsOk_feed ts initState (fun f hf => absurd hf (List.not_mem_nil f))

/-- Witness for C3 at a concrete image tag whose `class` is stripped and whose
`src` survives. -/
theorem spec_c3_attribute_allowlist_witness :
    attrOk defaultConfig "img" "src" := by
  have happ := spec_c3_attribute_allowlist
    [Token.startTag "img" [("src", some "p.gif"), ("class", some "x")]]
    (Frag.tagSelfClose "img" [("src", "p.gif")]) (by decide)
  exact happ ("src", "p.gif") (by decide)

/-- Claim C4: every collected href is non-empty, not an inline-exception, and
appears exactly once (the list is duplicate-free, appends happen at the end in
first-occurrence order and duplicates are skipped); an inline-exception href
never enters the list and is emitted as a literal anchor instead of the
`[link]`/`[/link]` placeholder markers; the spec's duplicate-href example
collects `https://x` exactly once and the exception example renders as a
literal anchor. -/
theorem spec_c4_link_extraction :
    (∀ (ts : List Token),
      (feed defaultConfig ts initState).links.Nodup ∧
      ∀ x ∈ (feed defaultConfig ts initState).links, x ≠ "" ∧ href_exception x = false) ∧
    (∀ (s : PState) (attrs : Attrs) (v : String),
      s.skip_depth = 0 → s.pretext_depth = 0 → is_hidden_pretext attrs = false →
      hrefAttr attrs = some v → v ≠ "" →
      (href_exception v = true →
        handle_starttag defaultConfig "a" attrs s =
          { s with output := s.output ++ [Frag.inlineAnchorOpen v],
                   inline_anchor_depth := s.inline_anchor_depth + 1 }) ∧
      (href_exception v = false →
        handle_starttag defaultConfig "a" attrs s =
          { s with output := s.output ++ [Frag.linkOpen],
                   links := if v ∈ s.link_set then s.links else s.links ++ [v],
                   link_set := if v ∈ s.link_set then s.link_set else s.link_set ++ [v] })) ∧
    (∀ (s : PState), s.skip_depth = 0 → s.pretext_depth = 0 →
      (s.inline_anchor_depth > 0 →
        handle_endtag defaultConfig "a" s =
          { s with output := s.output ++ [Frag.inlineAnchorClose],
                   inline_anchor_depth := s.inline_anchor_depth - 1 }) ∧
      (s.inline_anchor_depth = 0 →
        handle_endtag defaultConfig "a" s =
          { s with output := s.output ++ [Frag.linkClose] })) ∧
    (feed defaultConfig [Token.startTag "a" [("href", some "https://x")], Token.dataTok "t",
      Token.endTag "a", Token.startTag "a" [("href", some "https://x")], Token.dataTok "t2",
      Token.endTag "a"] initState).links = ["https://x"] ∧
    get_output (feed defaultConfig [Token.startTag "a" [("href", some "mailto:z")],
      Token.dataTok "m", Token.endTag "a"] initState) = "<a href=\"mailto:z\">m</a>" := by
  refine ⟨?_, ?_, ?_, by decide, by decide⟩
  · intro ts
    have hinv := linkInv_feed ts initState
      ⟨List.nodup_nil, fun x => Iff.rfl, fun x hx => absurd hx (List.not_mem_nil x)⟩
    exact ⟨hinv.1, hinv.2.2⟩
  · exact fun s attrs v hs hp hh href hne => anchor_clear_start s attrs v hs hp hh href hne
  · exact fun s hs hp => anchor_clear_end s hs hp

/-- Witness for C4: the duplicate-href stream yields a duplicate-free list, and
a `mailto:` anchor in the initial state emits a literal anchor open tag. -/
theorem spec_c4_link_extraction_witness :
    (feed defaultConfig [Token.startTag "a" [("href", some "https://x")], Token.dataTok "t",
      Token.endTag "a", Token.startTag "a" [("href", some "https://x")], Token.dataTok "t2",
      Token.endTag "a"] initState).links.Nodup ∧
    handle_starttag defaultConfig "a" [("href", some "mailto:z")] initState =
      { initState with output := [Frag.inlineAnchorOpen "mailto:z"], inline_anchor_depth := 1 } := by
  constructor
  · exact (spec_c4_link_extraction.1 [Token.startTag "a" [("href", some "https://x")],
      Token.dataTok "t", Token.endTag "a", Token.startTag "a" [("href", some "https://x")],
      Token.dataTok "t2", Token.endTag "a"]).1
  · exact (spec_c4_link_extraction.2.1 initState [("href", some "mailto:z")] "mailto:z"
      rfl rfl (by decide) rfl (by decide)).1 (by decide)

/-- Counterexample to C5: a true self-closing `<br />` token and a
`<br></br>` start/end pair do NOT produce identical output — `handle_endtag`
has no self-closing guard and emits a `</br>` end tag, which survives
post-processing when the element has non-whitespace content. -/
theorem spec_c5_counterexample :
    (feed defaultConfig [Token.startTag "br" [], Token.endTag "br"] initState).output =
      [Frag.tagSelfClose "br" [], Frag.tagClose "br"] ∧
    cleanTokens defaultConfig [Token.startEndTag "br" [], Token.dataTok "x"] = "<br />x" ∧
    cleanTokens defaultConfig [Token.startTag "br" [], Token.dataTok "x", Token.endTag "br"] =
      "<br />x</br>" ∧
    cleanTokens defaultConfig [Token.startEndTag "br" [], Token.dataTok "x"] ≠
      cleanTokens defaultConfig [Token.startTag "br" [], Token.dataTok "x", Token.endTag "br"] := by
  refine ⟨by decide, by decide, by decide, by decide⟩

/-- Amended C5: a self-closing token itself never receives an end-tag emission
(`handle_startendtag` delegates to `handle_starttag`, which emits only
`<tag />`), but an explicit end-tag event for a self-closing tag such as `br`
is emitted as ordinary `</br>` markup like any kept tag, so the two tokenizer
reports differ by exactly that end tag. -/
theorem spec_c5_amended :
    (∀ (cfg : Config) (tag : String) (attrs : Attrs) (s : PState),
      handle_startendtag cfg tag attrs s = handle_starttag cfg tag attrs s) ∧
    (∀ (s : PState), s.skip_depth = 0 → s.pretext_depth = 0 → s.bold_tag_stack = [] →
      handle_endtag defaultConfig "br" s =
        { s with output := s.output ++ [Frag.tagClose "br"] }) :=
  ⟨fun _ _ _ _ => rfl, fun s hs hp hb => br_end_clear s hs hp hb⟩

/-- Witness for the amended C5 at the initial state. -/
theorem spec_c5_amended_witness :
    handle_startendtag defaultConfig "br" [] initState =
      handle_starttag defaultConfig "br" [] initState ∧
    handle_endtag defaultConfig "br" initState =
      { initState with output := [Frag.tagClose "br"] } :=
  ⟨spec_c5_amended.1 defaultConfig "br" [] initState,
    spec_c5_amended.2 initState rfl rfl rfl⟩

/-- Counterexample to C6: spacing around the colon is NOT irrelevant — a style
with two spaces after the colon (`display:  none`) or a tab
(`display:<TAB>none`) is not classified hidden, and such a start tag does not
enter the pretext-capture state. -/
theorem spec_c6_counterexample :
    is_hidden_pretext [("style", some "display:  none")] = false ∧
    is_hidden_pretext [("style", some "display:\tnone")] = false ∧
    (handle_starttag defaultConfig "p" [("style", some "display:  none")]
      initState).pretext_depth = 0 := by
  refine ⟨by decide, by decide, by decide⟩

/-- Amended C6: a start tag is classified hidden pretext exactly when some
`style` attribute has a non-empty value whose lowercasing contains, as a
substring, one of the ten literal patterns (each of the five properties with
either no space or exactly one space after the colon). -/
theorem spec_c6_amended :
    (∀ (attrs : Attrs),
      is_hidden_pretext attrs = true ↔
        ∃ p ∈ attrs, p.1 = "style" ∧ ∃ v, p.2 = some v ∧ v ≠ "" ∧
          ∃ pat ∈ hiddenPatterns, containsStr pat (lowerStr v) = true) ∧
    is_hidden_pretext [("style", some "display: none")] = true ∧
    is_hidden_pretext [("style", some "display:none")] = true :=
  ⟨hidden_iff, by decide, by decide⟩

/-- Counterexample to C7: an image whose width and height are given as inline
style declarations in the bare `1` form (no `px` unit) is NOT treated as a
tracking pixel — the style path of the check requires the `1px` form — so the
image is emitted, contradicting the claimed "1 or 1px" iff. -/
theorem spec_c7_counterexample :
    is_tracking_pixel [("style", some "width:1;height:1")] = false ∧
    (handle_starttag defaultConfig "img" [("style", some "width:1;height:1")]
      initState).output = [Frag.tagSelfClose "img" []] := by
  refine ⟨by decide, by decide⟩

/-- Amended C7: an image start tag is dropped (in a clear, non-hidden state)
exactly when both dimensions hit, where a dimension hits through the attribute
with value exactly `"1"` or `"1px"`, or through a non-empty style value whose
lowercasing contains `dim:` followed by optional whitespace and `1px` (the
bare `1` style form does not count). -/
theorem spec_c7_amended :
    (∀ (attrs : Attrs), is_tracking_pixel attrs = true ↔
      attrs.any (dimAttrHit "width") = true ∧ attrs.any (dimAttrHit "height") = true) ∧
    (∀ (s : PState) (attrs : Attrs), s.skip_depth = 0 → s.pretext_depth = 0 →
      is_hidden_pretext attrs = false →
      (handle_starttag defaultConfig "img" attrs s).output =
        (if is_tracking_pixel attrs = true then s.output
         else s.output ++
           [Frag.tagSelfClose "img" (filter_attributes defaultConfig "img" attrs)])) :=
  ⟨tracking_iff, fun s attrs hs hp hh => img_clear_output s attrs hs hp hh⟩

/-- Witness for the amended C7: the spec's tracking pixel is dropped in the
initial state. -/
theorem spec_c7_amended_witness :
    (is_tracking_pixel [("src", some "p.gif"), ("width", some "1"), ("height", some "1")] = true ↔
      ([("src", some "p.gif"), ("width", some "1"), ("height", some "1")] : Attrs).any
        (dimAttrHit "width") = true ∧
      ([("src", some "p.gif"), ("width", some "1"), ("height", some "1")] : Attrs).any
        (dimAttrHit "height") = true) ∧
    (handle_starttag defaultConfig "img"
      [("src", some "p.gif"), ("width", some "1"), ("height", some "1")] initState).output =
      (if is_tracking_pixel [("src", some "p.gif"), ("width", some "1"), ("height", some "1")]
          = true then initState.output
       else initState.output ++ [Frag.tagSelfClose "img" (filter_attributes defaultConfig "img"
         [("src", some "p.gif"), ("width", some "1"), ("height", some "1")])]) :=
  ⟨spec_c7_amended.1 _, spec_c7_amended.2 initState _ rfl rfl (by decide)⟩

/-- Counterexample to C8: for the anchor document, the first clean produces a
header followed by the three-newline separator; the second pass tokenizes that
cleaned text (all plain data, hence only kept tags, nothing removable or
hidden), re-extracts no links, and collapses the blank lines, so
`clean (clean x) ≠ clean x`. -/
theorem spec_c8_counterexample :
    exceptOk (tokenizeModel (cleanStr defaultConfig "<a href=\"https://x\">t</a>")) = true ∧
    cleanedDocOk (toksOf (tokenizeModel
      (cleanStr defaultConfig "<a href=\"https://x\">t</a>"))) = true ∧
    cleanStr defaultConfig "<a href=\"https://x\">t</a>" =
      "Links:\nhttps://x\n\n\n[link]t[/link]" ∧
    cleanStr defaultConfig (cleanStr defaultConfig "<a href=\"https://x\">t</a>") ≠
      cleanStr defaultConfig "<a href=\"https://x\">t</a>" := by
  refine ⟨by decide, by decide, by decide, by decide⟩

/-- Amended C8: a second pass is not a no-op in general — once a header block
is present its three-newline separator is collapsed and the header is not
re-derived — but on a header-free cleaned document such as `<p>hello</p>` a
second pass is a no-op. -/
theorem spec_c8_amended :
    cleanStr defaultConfig "<p>hello</p>" = "<p>hello</p>" ∧
    cleanStr defaultConfig (cleanStr defaultConfig "<p>hello</p>") =
      cleanStr defaultConfig "<p>hello</p>" := by
  refine ⟨by decide, by decide⟩

/-- Claim C9: when a hidden-pretext region closes (depth returns to 0 on an end
tag), the buffered text is stripped, its leading and trailing
whitespace-and-`&nbsp;` runs removed, trimmed, and appended to the pretext list
only when non-empty; in particular the all-`&nbsp;` span records no pretext. -/
theorem spec_c9_pretext_flush :
    (∀ (tag : String) (s : PState), ¬ (tag = "title" ∧ s.in_title = true) →
      s.skip_depth = 0 → s.pretext_depth = 1 →
      (handle_endtag defaultConfig tag s).pretexts =
        (if pretextClean (String.join s.pretext_content) = "" then s.pretexts
         else s.pretexts ++ [pretextClean (String.join s.pretext_content)]) ∧
      (handle_endtag defaultConfig tag s).pretext_depth = 0 ∧
      (handle_endtag defaultConfig tag s).pretext_content = []) ∧
    pretextClean "&nbsp;&nbsp;" = "" ∧
    (feed defaultConfig [Token.startTag "span" [("style", some "display:none")],
      Token.entityRef "nbsp", Token.entityRef "nbsp", Token.endTag "span"]
      initState).pretexts = [] := by
  refine ⟨fun tag s ht hs hp => pretext_flush tag s ht hs hp, by decide, by decide⟩

/-- Witness for C9 at a concrete buffered state. -/
theorem spec_c9_pretext_flush_witness :
    (handle_endtag defaultConfig "span"
        ⟨[], 0, 1, ["&nbsp;", "x"], [], [], [], [], none, false, [], 0⟩).pretexts =
      (if pretextClean (String.join ["&nbsp;", "x"]) = "" then ([] : List String)
       else [] ++ [pretextClean (String.join ["&nbsp;", "x"])]) ∧
    (handle_endtag defaultConfig "span"
        ⟨[], 0, 1, ["&nbsp;", "x"], [], [], [], [], none, false, [], 0⟩).pretext_depth = 0 ∧
    (handle_endtag defaultConfig "span"
        ⟨[], 0, 1, ["&nbsp;", "x"], [], [], [], [], none, false, [], 0⟩).pretext_content = [] :=
  spec_c9_pretext_flush.1 "span" ⟨[], 0, 1, ["&nbsp;", "x"], [], [], [], [], none, false, [], 0⟩
    (fun hc => absurd hc.1 (by decide)) rfl rfl

/-- Claim C10 (implicit): hidden-pretext classification is substring
containment on the lowercased style value, so `style="opacity: 0.5"` — which
contains `opacity: 0` — is classified hidden, and the visible text of such an
element is diverted to the pretext list and removed from the body output. -/
theorem spec_c10_hidden_substring :
    containsStr "opacity: 0" (lowerStr "opacity: 0.5") = true ∧
    is_hidden_pretext [("style", some "opacity: 0.5")] = true ∧
    (feed defaultConfig [Token.startTag "p" [("style", some "opacity: 0.5")],
      Token.dataTok "SECRET", Token.endTag "p"] initState).output = [] ∧
    (feed defaultConfig [Token.startTag "p" [("style", some "opacity: 0.5")],
      Token.dataTok "SECRET", Token.endTag "p"] initState).pretexts = ["SECRET"] := by
  refine ⟨by decide, by decide, by decide, by decide⟩
